import Mathlib

/-!
# Verification of the JPG thumbnail generator (`src/image-gui4-multi3.py`)

This file shallowly embeds the worker routine `process_single_file`
(lines 19-91 of the source), the scan phase of `App.start_processing`
(lines 200-216), and the result aggregation `App.process_results`
(lines 231-244).

Modelling conventions:
* File contents are abstract byte lists (`Bytes`); the filesystem is an
  association list from paths to contents (`FS`).  A write prepends an
  entry, so a later entry for the same path shadows an earlier one,
  exactly like overwriting a file.
* The external libraries (`cv2`, `piexif`) and the Python/`os.path`
  builtins are modelled as oracle fields of an `Env` record: they are
  arbitrary deterministic functions, fallible ones returning
  `Except String` (an `Except.error` models a raised exception whose
  text is the carried string).  The repository's own logic — the
  thumbnail arithmetic, the EXIF orientation defaulting, the filename
  formatting, conflict resolution including the unbounded rename loop,
  the scan filter, and the counter aggregation — is embedded concretely.
* Python's `int()` on the nonnegative products of line 43 is the floor;
  the ratio arithmetic of line 42 is embedded over `ℚ`.
-/

namespace JpgThumb

/-- Abstract file contents: a list of byte values. -/
abbrev Bytes := List Nat

/-- A filesystem path, as the string Python manipulates. -/
abbrev Path := String

/-- The filesystem: an association list from paths to file contents.
A write prepends, so the most recent write for a path wins. -/
abbrev FS := List (Path × Bytes)

/-- Read a file: the most recently written contents for the path, if any. -/
def lookupFS : FS → Path → Option Bytes
  | [], _ => none
  | (q, b) :: rest, p => if p = q then some b else lookupFS rest p

/-- `os.path.exists` on the modelled filesystem. -/
def fsExists (fs : FS) (p : Path) : Bool :=
  (lookupFS fs p).isSome

/-- `open(p, 'wb').write(b)`: create or overwrite the file at `p`. -/
def fsWrite (fs : FS) (p : Path) (b : Bytes) : FS :=
  (p, b) :: fs

/-- The decoded image of line 36: only its shape (`img.shape[:2]`,
i.e. height then width) is inspected by the source. -/
structure Img where
  height : Nat
  width : Nat
deriving DecidableEq

/-- The `piexif` EXIF dictionary: IFD tables map integer tags to integer
values; `zeroth?` is `Option` because the source checks for the presence
of the `"0th"` key at line 50.  `thumbnail` is the raw thumbnail bytes. -/
structure ExifDict where
  zeroth? : Option (List (Nat × Nat))
  exifIFD : List (Nat × Nat)
  gpsIFD : List (Nat × Nat)
  firstIFD : List (Nat × Nat)
  thumbnail : Option Bytes
deriving DecidableEq

/-- Line 34: `{"0th": {}, "Exif": {}, "GPS": {}, "1st": {}, "thumbnail": None}`. -/
def emptyExifDict : ExifDict :=
  ⟨some [], [], [], [], none⟩

/-- `piexif.ImageIFD.Orientation`. -/
def orientationTag : Nat := 274

/-- Python `tag in ifd` / `ifd[tag]` on the modelled IFD table. -/
def lookupTag : List (Nat × Nat) → Nat → Option Nat
  | [], _ => none
  | (t, v) :: rest, tag => if tag = t then some v else lookupTag rest tag

/-- Python `ifd[tag] = v`: replace the binding if present, else add it. -/
def setTag : List (Nat × Nat) → Nat → Nat → List (Nat × Nat)
  | [], tag, v => [(tag, v)]
  | (t, w) :: rest, tag, v =>
    if tag = t then (tag, v) :: rest else (t, w) :: setTag rest tag v

/-- Lines 50-51: `if "0th" not in exif_dict: exif_dict["0th"] = {}`. -/
def ensureZeroth (d : ExifDict) : ExifDict :=
  match d.zeroth? with
  | none => ⟨some [], d.exifIFD, d.gpsIFD, d.firstIFD, d.thumbnail⟩
  | some _ => d

/-- Lines 52-53: default the Orientation tag to `0` if absent. The
argument is assumed to have passed `ensureZeroth`, so `zeroth?` is read
with a `[]` default exactly as the source indexes `exif_dict["0th"]`. -/
def ensureOrientation (d : ExifDict) : ExifDict :=
  let z := d.zeroth?.getD []
  if (lookupTag z orientationTag).isNone then
    ⟨some (setTag z orientationTag 0), d.exifIFD, d.gpsIFD, d.firstIFD, d.thumbnail⟩
  else d

/-- Line 55: `exif_dict["thumbnail"] = thumb_buf.tobytes()`. -/
def setThumbnail (d : ExifDict) (tb : Bytes) : ExifDict :=
  ⟨d.zeroth?, d.exifIFD, d.gpsIFD, d.firstIFD, some tb⟩

/-- The EXIF container mutation performed by lines 50-55, in source
order: ensure the 0th IFD, default Orientation, attach the thumbnail. -/
def transformedExif (d : ExifDict) (tb : Bytes) : ExifDict :=
  setThumbnail (ensureOrientation (ensureZeroth d)) tb

/-- Line 42: `ratio = min(160 / w, 120 / h)`, over `ℚ`. -/
def thumbRatio (w h : Nat) : ℚ :=
  min ((160 : ℚ) / (w : ℚ)) ((120 : ℚ) / (h : ℚ))

/-- Line 43: `int(w * ratio), int(h * ratio)` — the thumbnail
`(new_width, new_height)`; `int` truncates, which is the floor here
because both products are nonnegative. -/
def thumbDims (w h : Nat) : Nat × Nat :=
  ((⌊(w : ℚ) * thumbRatio w h⌋).toNat, (⌊(h : ℚ) * thumbRatio w h⌋).toNat)

/-- Decimal digits of `n`, most significant first, with `fuel`
structural recursion (`fuel ≥ n` suffices for faithfulness). -/
def natToStringAux : Nat → Nat → List Char
  | 0, _ => []
  | fuel + 1, n =>
    if n = 0 then []
    else natToStringAux fuel (n / 10) ++ [Nat.digitChar (n % 10)]

/-- Python `str(n)` for a natural number: its decimal rendering. -/
def natToString (n : Nat) : String :=
  if n = 0 then "0" else ⟨natToStringAux n n⟩

/-- Line 79: the candidate path `f"{name_part} ({counter}){ext_part}"`. -/
def candidateName (np ep : String) (c : Nat) : Path :=
  np ++ " (" ++ natToString c ++ ")" ++ ep

/-- One Task tuple, line 24:
`full_path, output_root_folder, filename_format, conflict_resolution, root_folder, _`. -/
structure Task where
  fullPath : Path
  outputRoot : Path
  filenameFormat : String
  conflictResolution : String
  rootFolder : Path
  showLog : Bool
deriving DecidableEq

/-- A worker result: the `(status, message)` string pair the source
returns. -/
abbrev Result := String × String

/-- The oracle environment: the external libraries (`cv2`, `piexif`)
and the Python / `os.path` builtins the worker calls.  Each is an
arbitrary deterministic function; a fallible call returning
`Except.error e` models a raised exception with text `e`. -/
structure Env where
  /-- `piexif.load` (line 32). -/
  loadExif : Bytes → Except String ExifDict
  /-- `cv2.imdecode` (line 36): `none` models a `None` return. -/
  imdecode : Bytes → Option Img
  /-- `cv2.resize` (line 44). -/
  resize : Img → Nat → Nat → Img
  /-- `cv2.imencode(".jpg", ·)` (line 46): a success flag and buffer. -/
  imencode : Img → Bool × Bytes
  /-- `piexif.dump` (line 56). -/
  dumpExif : ExifDict → Except String Bytes
  /-- `piexif.insert(exif_bytes, original_bytes, ·)` (line 59). -/
  insertExif : Bytes → Bytes → Except String Bytes
  /-- `os.path.basename`. -/
  basename : Path → String
  /-- `os.path.dirname`. -/
  dirname : Path → Path
  /-- `os.path.splitext`. -/
  splitext : String → String × String
  /-- Python `str.replace` (line 63). -/
  strReplace : String → String → String → String
  /-- `os.path.relpath`. -/
  relpath : Path → Path → Path
  /-- `os.path.join`. -/
  joinPath : Path → Path → Path
  /-- `os.makedirs(·, exist_ok=True)` (line 69). -/
  makedirs : Path → Except String Unit
  /-- The write of lines 85-86 at a given path: `ok` if it succeeds. -/
  writeFile : Path → Except String Unit

/-- Lines 62-64: `new_filename` from the template and the source name. -/
def newFilenameOf (env : Env) (t : Task) : String :=
  let filename := env.basename t.fullPath
  let ne := env.splitext filename
  env.strReplace t.filenameFormat "{Filename}" ne.1 ++ ne.2

/-- Lines 66-68: the mirrored output folder for this file. -/
def outputFolderOf (env : Env) (t : Task) : Path :=
  env.joinPath t.outputRoot (env.relpath (env.dirname t.fullPath) t.rootFolder)

/-- Line 70: `output_path = os.path.join(output_folder_for_this_file, new_filename)`. -/
def outputPathOf (env : Env) (t : Task) : Path :=
  env.joinPath (outputFolderOf env t) (newFilenameOf env t)

theorem natToStringAux_zero (f : Nat) : natToStringAux f 0 = [] := by
  cases f <;> simp [natToStringAux]

theorem natToStringAux_fuel :
    ∀ f g n, n ≤ f → n ≤ g → natToStringAux f n = natToStringAux g n := by
  intro f
  induction f with
  | zero =>
    intro g n hf _
    have hn : n = 0 := Nat.le_zero.mp hf
    subst hn
    rw [natToStringAux_zero, natToStringAux_zero]
  | succ f' ih =>
    intro g n hf hg
    by_cases hn : n = 0
    · subst hn; rw [natToStringAux_zero, natToStringAux_zero]
    · rcases g with _ | g'
      · omega
      have hlt : n / 10 < n := Nat.div_lt_self (Nat.pos_of_ne_zero hn) (by omega)
      simp only [natToStringAux, if_neg hn]
      rw [ih g' (n / 10) (by omega) (by omega)]

theorem natToStringAux_ne_nil (f n : Nat) (hn : n ≠ 0) (hf : n ≤ f) :
    natToStringAux f n ≠ [] := by
  rcases f with _ | f'
  · omega
  · simp [natToStringAux, if_neg hn]

theorem digitChar_inj :
    ∀ a < 10, ∀ b < 10, Nat.digitChar a = Nat.digitChar b → a = b := by decide

theorem natToStringAux_inj :
    ∀ n f m g, n ≤ f → m ≤ g →
      natToStringAux f n = natToStringAux g m → n = m := by
  intro n
  induction n using Nat.strong_induction_on with
  | _ n ih =>
    intro f m g hf hg h
    by_cases hn : n = 0
    · subst hn
      rw [natToStringAux_zero] at h
      by_contra hne
      exact natToStringAux_ne_nil g m (fun h0 => hne h0.symm) hg h.symm
    · by_cases hm : m = 0
      · subst hm
        rw [natToStringAux_zero] at h
        exact absurd h (natToStringAux_ne_nil f n hn hf)
      · rcases f with _ | f'
        · omega
        rcases g with _ | g'
        · omega
        simp only [natToStringAux, if_neg hn, if_neg hm] at h
        obtain ⟨hpre, hlast⟩ := List.append_inj' h rfl
        have hhead : Nat.digitChar (n % 10) = Nat.digitChar (m % 10) := by
          injection hlast
        have hmod : n % 10 = m % 10 :=
          digitChar_inj (n % 10) (Nat.mod_lt n (by omega)) (m % 10)
            (Nat.mod_lt m (by omega)) hhead
        have hdiv : n / 10 = m / 10 :=
          ih (n / 10) (Nat.div_lt_self (Nat.pos_of_ne_zero hn) (by omega))
            f' (m / 10) g' (by omega) (by omega) hpre
        omega

theorem natToString_inj : Function.Injective natToString := by
  intro a b h
  unfold natToString at h
  by_cases ha : a = 0 <;> by_cases hb : b = 0
  · exact ha.trans hb.symm
  · exfalso
    rw [if_pos ha, if_neg hb] at h
    have hd : (['0'] : List Char) = natToStringAux b b := congrArg String.data h
    rcases b with _ | b'
    · omega
    simp only [natToStringAux, if_neg hb] at hd
    have h1 : ([] : List Char) ++ ['0'] =
        natToStringAux b' ((b' + 1) / 10) ++ [Nat.digitChar ((b' + 1) % 10)] := hd
    obtain ⟨hpre, hlast⟩ := List.append_inj' h1 rfl
    have hdiv : (b' + 1) / 10 = 0 := by
      by_contra hz
      exact natToStringAux_ne_nil b' ((b' + 1) / 10) hz (by omega) hpre.symm
    have hhead : Nat.digitChar 0 = Nat.digitChar ((b' + 1) % 10) := by
      injection hlast
    have hmod : (0 : Nat) = (b' + 1) % 10 :=
      digitChar_inj 0 (by omega) ((b' + 1) % 10) (Nat.mod_lt _ (by omega)) hhead
    omega
  · exfalso
    rw [if_neg ha, if_pos hb] at h
    have hd : natToStringAux a a = (['0'] : List Char) := congrArg String.data h
    rcases a with _ | a'
    · omega
    simp only [natToStringAux, if_neg ha] at hd
    have h1 : natToStringAux a' ((a' + 1) / 10) ++ [Nat.digitChar ((a' + 1) % 10)] =
        ([] : List Char) ++ ['0'] := hd
    obtain ⟨hpre, hlast⟩ := List.append_inj' h1 rfl
    have hdiv : (a' + 1) / 10 = 0 := by
      by_contra hz
      exact natToStringAux_ne_nil a' ((a' + 1) / 10) hz (by omega) hpre
    have hhead : Nat.digitChar ((a' + 1) % 10) = Nat.digitChar 0 := by
      injection hlast
    have hmod : (a' + 1) % 10 = (0 : Nat) :=
      digitChar_inj ((a' + 1) % 10) (Nat.mod_lt _ (by omega)) 0 (by omega) hhead
    omega
  · rw [if_neg ha, if_neg hb] at h
    have hd : natToStringAux a a = natToStringAux b b := congrArg String.data h
    exact natToStringAux_inj a a b b (Nat.le_refl a) (Nat.le_refl b) hd

theorem candidateName_inj (np ep : String) {c d : Nat}
    (h : candidateName np ep c = candidateName np ep d) : c = d := by
  have hd := congrArg String.data h
  simp only [candidateName, String.data_append, List.append_assoc] at hd
  have h1 := List.append_cancel_left hd
  have h2 := List.append_cancel_left h1
  have h3 := List.append_cancel_right h2
  have h4 : natToString c = natToString d := congrArg String.mk h3
  exact natToString_inj h4

theorem fsExists_mem {fs : FS} {p : Path} (h : fsExists fs p = true) :
    p ∈ fs.map Prod.fst := by
  induction fs with
  | nil => simp [fsExists, lookupFS] at h
  | cons e rest ih =>
    obtain ⟨q, b⟩ := e
    simp only [fsExists, lookupFS] at h
    by_cases hpq : p = q
    · simp [hpq]
    · rw [if_neg hpq] at h
      exact List.mem_cons_of_mem _ (ih h)

/-- The rename loop of lines 77-83 terminates: some candidate counter is
free, because the distinct candidate names cannot all be among the
finitely many paths of the filesystem. -/
def renameFree (fs : FS) (np ep : String) :
    ∃ n, fsExists fs (candidateName np ep (n + 2)) = false := by
  by_contra hc
  push_neg at hc
  have hall : ∀ n, fsExists fs (candidateName np ep (n + 2)) = true := by
    intro n
    have h := hc n
    revert h
    cases fsExists fs (candidateName np ep (n + 2)) <;> simp
  have hinj : Function.Injective (fun n : Nat => candidateName np ep (n + 2)) := by
    intro x y hxy
    have := candidateName_inj np ep hxy
    omega
  have hsub : (Finset.range ((fs.map Prod.fst).length + 1)).image
      (fun n => candidateName np ep (n + 2)) ⊆ (fs.map Prod.fst).toFinset := by
    intro x hx
    rw [Finset.mem_image] at hx
    obtain ⟨n, -, rfl⟩ := hx
    exact List.mem_toFinset.mpr (fsExists_mem (hall n))
  have h1 : (fs.map Prod.fst).length + 1 ≤ (fs.map Prod.fst).toFinset.card := by
    calc (fs.map Prod.fst).length + 1
        = (Finset.range ((fs.map Prod.fst).length + 1)).card := (Finset.card_range _).symm
      _ = ((Finset.range ((fs.map Prod.fst).length + 1)).image
            (fun n => candidateName np ep (n + 2))).card :=
          (Finset.card_image_of_injective _ hinj).symm
      _ ≤ (fs.map Prod.fst).toFinset.card := Finset.card_le_card hsub
  have h2 : (fs.map Prod.fst).toFinset.card ≤ (fs.map Prod.fst).length :=
    List.toFinset_card_le _
  omega

/-- Lines 75-83: starting at counter 2, the first candidate name
`f"{name_part} ({counter}){ext_part}"` that does not exist. -/
def renameTarget (fs : FS) (np ep : String) : Path :=
  candidateName np ep (Nat.find (renameFree fs np ep) + 2)

/-- Lines 31-60 of `process_single_file`: everything between the read
and the path computation.  Depends only on the environment and the bytes
read.  `Except.error e` is a raised exception (caught by the outer
handler); `Sum.inl m` is an early `FAILURE` return with message `m`
(lines 38, 48); `Sum.inr out` is the spliced output byte stream. -/
def computeOutput (env : Env) (originalBytes : Bytes) (filename : String) :
    Except String (String ⊕ Bytes) :=
  let exifDict : ExifDict :=
    match env.loadExif originalBytes with
    | Except.ok d => d
    | Except.error _ => emptyExifDict
  match env.imdecode originalBytes with
  | none => Except.ok (Sum.inl ("失败 (无法解码): " ++ filename))
  | some img =>
    let dims := thumbDims img.width img.height
    let thumb := env.resize img dims.1 dims.2
    match env.imencode thumb with
    | (false, _) => Except.ok (Sum.inl ("失败 (编码缩略图失败): " ++ filename))
    | (true, thumbBuf) =>
      match env.dumpExif (transformedExif exifDict thumbBuf) with
      | Except.error e => Except.error e
      | Except.ok exifBytes =>
        match env.insertExif exifBytes originalBytes with
        | Except.error e => Except.error e
        | Except.ok outputBytes => Except.ok (Sum.inr outputBytes)

/-- The body of the `try` block of `process_single_file` (lines 28-88):
read, transform, resolve the destination, write.  An `Except.error` is
an exception that will be caught by the handler of lines 90-91. -/
def processBody (env : Env) (fs : FS) (t : Task) : Except String (Result × FS) :=
  let filename := env.basename t.fullPath
  match lookupFS fs t.fullPath with
  | none => Except.error ("No such file or directory: " ++ t.fullPath)
  | some originalBytes =>
    match computeOutput env originalBytes filename with
    | Except.error e => Except.error e
    | Except.ok (Sum.inl msg) => Except.ok (("FAILURE", msg), fs)
    | Except.ok (Sum.inr outputBytes) =>
      match env.makedirs (outputFolderOf env t) with
      | Except.error e => Except.error e
      | Except.ok _ =>
        let outputPath := outputPathOf env t
        let finalPath : Option Path :=
          if fsExists fs outputPath then
            if t.conflictResolution = "skip" then none
            else if t.conflictResolution = "rename" then
              some (renameTarget fs (env.splitext outputPath).1 (env.splitext outputPath).2)
            else some outputPath
          else some outputPath
        match finalPath with
        | none =>
          Except.ok (("SKIPPED_EXISTS", "已跳过 (文件已存在): " ++ newFilenameOf env t), fs)
        | some p =>
          match env.writeFile p with
          | Except.error e => Except.error e
          | Except.ok _ =>
            Except.ok (("SUCCESS", "已处理: " ++ filename ++ " -> " ++ env.basename p),
              fsWrite fs p outputBytes)

/-- `process_single_file` (lines 19-91): the body wrapped by the
catch-all `except` of lines 90-91, which converts an exception into a
`FAILURE` result carrying the exception text. -/
def processSingleFile (env : Env) (fs : FS) (t : Task) : Result × FS :=
  match processBody env fs t with
  | Except.ok r => r
  | Except.error e =>
    (("FAILURE", "失败: " ++ env.basename t.fullPath ++ " (" ++ e ++ ")"), fs)

/-- Line 204: `filename.lower().endswith(('.jpg', '.jpeg'))`. -/
def isJpegName (s : String) : Bool :=
  s.toLower.endsWith ".jpg" || s.toLower.endsWith ".jpeg"

/-- One file of the scan loop (lines 203-216): enqueue a Task for a
JPEG-named file whose EXIF read/parse fails or whose parsed EXIF has no
thumbnail; count it as pre-skipped when a thumbnail is present. -/
def scanStep (env : Env) (fs : FS) (outRoot : Path) (fmt pol : String)
    (inRoot : Path) (log : Bool) (folder : Path)
    (acc : List Task × Nat) (name : String) : List Task × Nat :=
  if isJpegName name then
    let fullPath := env.joinPath folder name
    match lookupFS fs fullPath with
    | some b =>
      match env.loadExif b with
      | Except.ok d =>
        match d.thumbnail with
        | none => (acc.1 ++ [⟨fullPath, outRoot, fmt, pol, inRoot, log⟩], acc.2)
        | some _ => (acc.1, acc.2 + 1)
      | Except.error _ => (acc.1 ++ [⟨fullPath, outRoot, fmt, pol, inRoot, log⟩], acc.2)
    | none => (acc.1 ++ [⟨fullPath, outRoot, fmt, pol, inRoot, log⟩], acc.2)
  else acc

/-- The inner `for filename in filenames` loop for one walked folder. -/
def scanFolder (env : Env) (fs : FS) (outRoot : Path) (fmt pol : String)
    (inRoot : Path) (log : Bool) (acc : List Task × Nat)
    (entry : Path × List String) : List Task × Nat :=
  entry.2.foldl (scanStep env fs outRoot fmt pol inRoot log entry.1) acc

/-- The scan phase of `start_processing` (lines 200-216): `os.walk` is
modelled by the given list of `(folder, filenames)` entries. -/
def scanWalk (env : Env) (fs : FS) (outRoot : Path) (fmt pol : String)
    (inRoot : Path) (log : Bool) (entries : List (Path × List String)) :
    List Task × Nat :=
  entries.foldl (scanFolder env fs outRoot fmt pol inRoot log) ([], 0)

/-- The sequential dispatch of `run_single_process` (lines 266-268):
each task runs against the filesystem left by the previous one.  Returns
the results in submission order and the final filesystem. -/
def runSingleProcess (env : Env) (fs : FS) : List Task → List Result × FS
  | [] => ([], fs)
  | t :: ts =>
    let r := processSingleFile env fs t
    let rest := runSingleProcess env r.2 ts
    (r.1 :: rest.1, rest.2)

/-- One iteration of the result loop of `process_results` (lines
235-241): bump the counter matching the status, ignore anything else. -/
def resultStep (c : Nat × Nat × Nat) (r : Result) : Nat × Nat × Nat :=
  if r.1 = "SUCCESS" then (c.1 + 1, c.2.1, c.2.2)
  else if r.1 = "SKIPPED_EXISTS" then (c.1, c.2.1 + 1, c.2.2)
  else if r.1 = "FAILURE" then (c.1, c.2.1, c.2.2 + 1)
  else c

/-- The counter aggregation of `process_results` (lines 232-241):
`(processed, skipped_exists, failed)`. -/
def processResults (rs : List Result) : Nat × Nat × Nat :=
  rs.foldl resultStep (0, 0, 0)

/-- Running the whole batch `n` times in sequence, as the filesystem
evolves (same environment and task each time). -/
def runNTimes (env : Env) (t : Task) : Nat → FS → FS
  | 0, fs => fs
  | n + 1, fs => runNTimes env t n (processSingleFile env fs t).2

/-- `env` with `piexif.load` replaced by one that always returns the
empty EXIF container of line 34. -/
def withEmptyLoad (env : Env) : Env :=
  ⟨fun _ => Except.ok emptyExifDict, env.imdecode, env.resize, env.imencode,
   env.dumpExif, env.insertExif, env.basename, env.dirname, env.splitext,
   env.strReplace, env.relpath, env.joinPath, env.makedirs, env.writeFile⟩

/-- A JPEG file as a list of marker segments (following SOI). -/
inductive Segment where
  /-- The APP1 EXIF metadata segment with its payload. -/
  | exifApp1 (payload : Bytes)
  /-- Any other segment: marker code and payload.  The entropy-coded
  pixel data is among these. -/
  | other (marker : Nat) (payload : Bytes)
deriving DecidableEq

/-- Whether a segment is the EXIF metadata segment. -/
def Segment.isExif : Segment → Bool
  | Segment.exifApp1 _ => true
  | Segment.other _ _ => false

/-- Modelled from the spec: `piexif.insert` is third-party library code,
not part of this repository.  Spec §4.1 steps 7-8: "re-serialize the
container to binary" and "splice the new EXIF binary into the original
file bytes (pixel data untouched)".  At the segment level: any existing
EXIF segment is removed, the new EXIF bytes become the (single) EXIF
segment, and every non-EXIF segment is kept unchanged. -/
def insertExifSegments (exif : Bytes) (segs : List Segment) : List Segment :=
  Segment.exifApp1 exif :: segs.filter (fun s => !s.isExif)

/-- The non-EXIF portion of a segmented file: pixel data and all other
metadata segments, in order. -/
def nonExifPart (segs : List Segment) : List Segment :=
  segs.filter (fun s => !s.isExif)

/-- The payloads of the EXIF segments of a segmented file. -/
def exifPayloads (segs : List Segment) : List Bytes :=
  segs.filterMap (fun s =>
    match s with
    | Segment.exifApp1 p => some p
    | Segment.other _ _ => none)

theorem lookupFS_write_self (fs : FS) (p : Path) (b : Bytes) :
    lookupFS (fsWrite fs p b) p = some b := by
  simp [fsWrite, lookupFS]

theorem lookupFS_write_ne (fs : FS) (p : Path) (b : Bytes) {q : Path} (h : q ≠ p) :
    lookupFS (fsWrite fs p b) q = lookupFS fs q := by
  simp [fsWrite, lookupFS, h]

theorem fsExists_write_self (fs : FS) (p : Path) (b : Bytes) :
    fsExists (fsWrite fs p b) p = true := by
  simp [fsExists, lookupFS_write_self]

theorem fsExists_write_ne (fs : FS) (p : Path) (b : Bytes) {q : Path} (h : q ≠ p) :
    fsExists (fsWrite fs p b) q = fsExists fs q := by
  simp [fsExists, lookupFS_write_ne fs p b h]

theorem statusStrings_distinct :
    ("SUCCESS" : String) ≠ "SKIPPED_EXISTS" ∧ ("SUCCESS" : String) ≠ "FAILURE" ∧
    ("SKIPPED_EXISTS" : String) ≠ "FAILURE" := by
  refine ⟨?_, ?_, ?_⟩ <;> decide

theorem renameTarget_not_exists (fs : FS) (np ep : String) :
    fsExists fs (renameTarget fs np ep) = false :=
  Nat.find_spec (renameFree fs np ep)

theorem renameTarget_eq (fs : FS) (np ep : String) (m : Nat)
    (hfree : fsExists fs (candidateName np ep (m + 2)) = false)
    (hocc : ∀ k < m, fsExists fs (candidateName np ep (k + 2)) = true) :
    renameTarget fs np ep = candidateName np ep (m + 2) := by
  unfold renameTarget
  have hm : Nat.find (renameFree fs np ep) = m := by
    rw [Nat.find_eq_iff]
    exact ⟨hfree, fun k hk => by simp [hocc k hk]⟩
  rw [hm]

theorem foldl_resultStep (rs : List Result) :
    ∀ c : Nat × Nat × Nat,
      rs.foldl resultStep c =
        (c.1 + rs.countP (fun r => decide (r.1 = "SUCCESS")),
         c.2.1 + rs.countP (fun r => decide (r.1 = "SKIPPED_EXISTS")),
         c.2.2 + rs.countP (fun r => decide (r.1 = "FAILURE"))) := by
  induction rs with
  | nil => intro c; simp
  | cons r rs ih =>
    intro c
    rw [List.foldl_cons, ih]
    unfold resultStep
    by_cases h1 : r.1 = "SUCCESS"
    · simp only [List.countP_cons, h1]
      simp
      omega
    · by_cases h2 : r.1 = "SKIPPED_EXISTS"
      · simp only [List.countP_cons, h1, h2]
        simp
        omega
      · by_cases h3 : r.1 = "FAILURE"
        · simp only [List.countP_cons, h1, h2, h3]
          simp
          omega
        · simp [List.countP_cons, h1, h2, h3]

theorem processResults_eq_countP (rs : List Result) :
    processResults rs =
      (rs.countP (fun r => decide (r.1 = "SUCCESS")),
       rs.countP (fun r => decide (r.1 = "SKIPPED_EXISTS")),
       rs.countP (fun r => decide (r.1 = "FAILURE"))) := by
  unfold processResults
  rw [foldl_resultStep]
  simp

theorem processSingleFile_read_fail (env : Env) (fs : FS) (t : Task)
    (h : lookupFS fs t.fullPath = none) :
    processSingleFile env fs t =
      (("FAILURE", "失败: " ++ env.basename t.fullPath ++ " (" ++
        ("No such file or directory: " ++ t.fullPath) ++ ")"), fs) := by
  simp [processSingleFile, processBody, h]

theorem processSingleFile_body_err (env : Env) (fs : FS) (t : Task) (ob : Bytes) (e : String)
    (hob : lookupFS fs t.fullPath = some ob)
    (hco : computeOutput env ob (env.basename t.fullPath) = Except.error e) :
    processSingleFile env fs t =
      (("FAILURE", "失败: " ++ env.basename t.fullPath ++ " (" ++ e ++ ")"), fs) := by
  simp [processSingleFile, processBody, hob, hco]

theorem processSingleFile_early_failure (env : Env) (fs : FS) (t : Task) (ob : Bytes) (m : String)
    (hob : lookupFS fs t.fullPath = some ob)
    (hco : computeOutput env ob (env.basename t.fullPath) = Except.ok (Sum.inl m)) :
    processSingleFile env fs t = (("FAILURE", m), fs) := by
  simp [processSingleFile, processBody, hob, hco]

theorem processSingleFile_mkdir_err (env : Env) (fs : FS) (t : Task) (ob outB : Bytes) (e : String)
    (hob : lookupFS fs t.fullPath = some ob)
    (hco : computeOutput env ob (env.basename t.fullPath) = Except.ok (Sum.inr outB))
    (hmk : env.makedirs (outputFolderOf env t) = Except.error e) :
    processSingleFile env fs t =
      (("FAILURE", "失败: " ++ env.basename t.fullPath ++ " (" ++ e ++ ")"), fs) := by
  simp [processSingleFile, processBody, hob, hco, hmk]

theorem processSingleFile_skip (env : Env) (fs : FS) (t : Task) (ob outB : Bytes)
    (hob : lookupFS fs t.fullPath = some ob)
    (hco : computeOutput env ob (env.basename t.fullPath) = Except.ok (Sum.inr outB))
    (hmk : env.makedirs (outputFolderOf env t) = Except.ok ())
    (hpol : t.conflictResolution = "skip")
    (hex : fsExists fs (outputPathOf env t) = true) :
    processSingleFile env fs t =
      (("SKIPPED_EXISTS", "已跳过 (文件已存在): " ++ newFilenameOf env t), fs) := by
  simp [processSingleFile, processBody, hob, hco, hmk, hpol, hex]

theorem processSingleFile_write_new (env : Env) (fs : FS) (t : Task) (ob outB : Bytes)
    (hob : lookupFS fs t.fullPath = some ob)
    (hco : computeOutput env ob (env.basename t.fullPath) = Except.ok (Sum.inr outB))
    (hmk : env.makedirs (outputFolderOf env t) = Except.ok ())
    (hex : fsExists fs (outputPathOf env t) = false)
    (hwr : env.writeFile (outputPathOf env t) = Except.ok ()) :
    processSingleFile env fs t =
      (("SUCCESS", "已处理: " ++ env.basename t.fullPath ++ " -> " ++
        env.basename (outputPathOf env t)),
       fsWrite fs (outputPathOf env t) outB) := by
  simp [processSingleFile, processBody, hob, hco, hmk, hex, hwr]

theorem processSingleFile_write_err (env : Env) (fs : FS) (t : Task) (ob outB : Bytes) (e : String)
    (hob : lookupFS fs t.fullPath = some ob)
    (hco : computeOutput env ob (env.basename t.fullPath) = Except.ok (Sum.inr outB))
    (hmk : env.makedirs (outputFolderOf env t) = Except.ok ())
    (hex : fsExists fs (outputPathOf env t) = false)
    (hwr : env.writeFile (outputPathOf env t) = Except.error e) :
    processSingleFile env fs t =
      (("FAILURE", "失败: " ++ env.basename t.fullPath ++ " (" ++ e ++ ")"), fs) := by
  simp [processSingleFile, processBody, hob, hco, hmk, hex, hwr]

theorem processSingleFile_fallthrough (env : Env) (fs : FS) (t : Task) (ob outB : Bytes)
    (hob : lookupFS fs t.fullPath = some ob)
    (hco : computeOutput env ob (env.basename t.fullPath) = Except.ok (Sum.inr outB))
    (hmk : env.makedirs (outputFolderOf env t) = Except.ok ())
    (hex : fsExists fs (outputPathOf env t) = true)
    (hp1 : t.conflictResolution ≠ "skip")
    (hp2 : t.conflictResolution ≠ "rename")
    (hwr : env.writeFile (outputPathOf env t) = Except.ok ()) :
    processSingleFile env fs t =
      (("SUCCESS", "已处理: " ++ env.basename t.fullPath ++ " -> " ++
        env.basename (outputPathOf env t)),
       fsWrite fs (outputPathOf env t) outB) := by
  simp [processSingleFile, processBody, hob, hco, hmk, hex, hp1, hp2, hwr]

theorem processSingleFile_rename (env : Env) (fs : FS) (t : Task) (ob outB : Bytes)
    (hob : lookupFS fs t.fullPath = some ob)
    (hco : computeOutput env ob (env.basename t.fullPath) = Except.ok (Sum.inr outB))
    (hmk : env.makedirs (outputFolderOf env t) = Except.ok ())
    (hex : fsExists fs (outputPathOf env t) = true)
    (hpol : t.conflictResolution = "rename")
    (hwr : env.writeFile
      (renameTarget fs (env.splitext (outputPathOf env t)).1
        (env.splitext (outputPathOf env t)).2) = Except.ok ()) :
    processSingleFile env fs t =
      (("SUCCESS", "已处理: " ++ env.basename t.fullPath ++ " -> " ++
        env.basename (renameTarget fs (env.splitext (outputPathOf env t)).1
          (env.splitext (outputPathOf env t)).2)),
       fsWrite fs
        (renameTarget fs (env.splitext (outputPathOf env t)).1
          (env.splitext (outputPathOf env t)).2) outB) := by
  have hps : t.conflictResolution ≠ "skip" := by rw [hpol]; decide
  simp [processSingleFile, processBody, hob, hco, hmk, hex, hpol, hps, hwr]

theorem processSingleFile_rename_write_err (env : Env) (fs : FS) (t : Task)
    (ob outB : Bytes) (e : String)
    (hob : lookupFS fs t.fullPath = some ob)
    (hco : computeOutput env ob (env.basename t.fullPath) = Except.ok (Sum.inr outB))
    (hmk : env.makedirs (outputFolderOf env t) = Except.ok ())
    (hex : fsExists fs (outputPathOf env t) = true)
    (hpol : t.conflictResolution = "rename")
    (hwr : env.writeFile
      (renameTarget fs (env.splitext (outputPathOf env t)).1
        (env.splitext (outputPathOf env t)).2) = Except.error e) :
    processSingleFile env fs t =
      (("FAILURE", "失败: " ++ env.basename t.fullPath ++ " (" ++ e ++ ")"), fs) := by
  have hps : t.conflictResolution ≠ "skip" := by rw [hpol]; decide
  simp [processSingleFile, processBody, hob, hco, hmk, hex, hpol, hps, hwr]

theorem processSingleFile_fallthrough_write_err (env : Env) (fs : FS) (t : Task)
    (ob outB : Bytes) (e : String)
    (hob : lookupFS fs t.fullPath = some ob)
    (hco : computeOutput env ob (env.basename t.fullPath) = Except.ok (Sum.inr outB))
    (hmk : env.makedirs (outputFolderOf env t) = Except.ok ())
    (hex : fsExists fs (outputPathOf env t) = true)
    (hp1 : t.conflictResolution ≠ "skip")
    (hp2 : t.conflictResolution ≠ "rename")
    (hwr : env.writeFile (outputPathOf env t) = Except.error e) :
    processSingleFile env fs t =
      (("FAILURE", "失败: " ++ env.basename t.fullPath ++ " (" ++ e ++ ")"), fs) := by
  simp [processSingleFile, processBody, hob, hco, hmk, hex, hp1, hp2, hwr]

theorem processSingleFile_status (env : Env) (fs : FS) (t : Task) :
    (processSingleFile env fs t).1.1 = "SUCCESS" ∨
    (processSingleFile env fs t).1.1 = "SKIPPED_EXISTS" ∨
    (processSingleFile env fs t).1.1 = "FAILURE" := by
  cases hob : lookupFS fs t.fullPath with
  | none => rw [processSingleFile_read_fail env fs t hob]; simp
  | some ob =>
    cases hco : computeOutput env ob (env.basename t.fullPath) with
    | error e => rw [processSingleFile_body_err env fs t ob e hob hco]; simp
    | ok v =>
      cases v with
      | inl m => rw [processSingleFile_early_failure env fs t ob m hob hco]; simp
      | inr outB =>
        cases hmk : env.makedirs (outputFolderOf env t) with
        | error e => rw [processSingleFile_mkdir_err env fs t ob outB e hob hco hmk]; simp
        | ok u =>
          cases u
          cases hex : fsExists fs (outputPathOf env t) with
          | false =>
            cases hwr : env.writeFile (outputPathOf env t) with
            | error e =>
              rw [processSingleFile_write_err env fs t ob outB e hob hco hmk hex hwr]; simp
            | ok u2 =>
              cases u2
              rw [processSingleFile_write_new env fs t ob outB hob hco hmk hex hwr]; simp
          | true =>
            by_cases hsk : t.conflictResolution = "skip"
            · rw [processSingleFile_skip env fs t ob outB hob hco hmk hsk hex]; simp
            · by_cases hrn : t.conflictResolution = "rename"
              · cases hwr : env.writeFile
                    (renameTarget fs (env.splitext (outputPathOf env t)).1
                      (env.splitext (outputPathOf env t)).2) with
                | error e =>
                  rw [processSingleFile_rename_write_err env fs t ob outB e hob hco hmk hex hrn hwr]
                  simp
                | ok u2 =>
                  cases u2
                  rw [processSingleFile_rename env fs t ob outB hob hco hmk hex hrn hwr]
                  simp
              · cases hwr : env.writeFile (outputPathOf env t) with
                | error e =>
                  rw [processSingleFile_fallthrough_write_err env fs t ob outB e hob hco hmk hex
                    hsk hrn hwr]
                  simp
                | ok u2 =>
                  cases u2
                  rw [processSingleFile_fallthrough env fs t ob outB hob hco hmk hex hsk hrn hwr]
                  simp

/-- The 0th IFD table of a container, read as the source reads
`exif_dict["0th"]` (empty when the key is absent). -/
def zerothTags (d : ExifDict) : List (Nat × Nat) :=
  d.zeroth?.getD []

theorem lookupTag_setTag (l : List (Nat × Nat)) (tag v : Nat) :
    lookupTag (setTag l tag v) tag = some v := by
  induction l with
  | nil => simp [setTag, lookupTag]
  | cons e rest ih =>
    obtain ⟨t, w⟩ := e
    by_cases h : tag = t
    · simp [setTag, lookupTag, h]
    · simp [setTag, lookupTag, h, ih]

/-- C4: for every EXIF container and thumbnail, the container the worker
serializes (built by lines 50-55) maps the Orientation tag to the source
container's value when one was present and to `0` when it was absent:
`lookup 274 (output 0th) = some (lookup 274 (source 0th) with default 0)`. -/
theorem C4_orientation_defaulted (d : ExifDict) (tb : Bytes) :
    lookupTag (zerothTags (transformedExif d tb)) orientationTag =
      some ((lookupTag (zerothTags d) orientationTag).getD 0) := by
  unfold transformedExif setThumbnail ensureOrientation ensureZeroth zerothTags
  cases hz : d.zeroth? with
  | none => simp [lookupTag, lookupTag_setTag]
  | some z =>
    cases hlk : lookupTag z orientationTag with
    | none => simp [hz, hlk, lookupTag_setTag]
    | some v => simp [hz, hlk]

/-- C2: splicing the rewritten EXIF into a segmented JPEG leaves the
non-EXIF portion (pixel data and all other segments) byte-identical, and
the output's only EXIF payload is the new one. -/
theorem C2_non_exif_preserved (exif : Bytes) (segs : List Segment) :
    nonExifPart (insertExifSegments exif segs) = nonExifPart segs ∧
    exifPayloads (insertExifSegments exif segs) = [exif] := by
  constructor
  · have h1 : List.filter (fun s => !s.isExif)
        (List.filter (fun s => !s.isExif) segs) =
        List.filter (fun s => !s.isExif) segs := by
      rw [List.filter_filter]
      congr 1
      funext s
      simp [Bool.and_self]
    simp [nonExifPart, insertExifSegments, Segment.isExif, h1]
  · have h2 : List.filterMap
        (fun s => match s with
          | Segment.exifApp1 p => some p
          | Segment.other _ _ => none)
        (List.filter (fun s => !s.isExif) segs) = [] := by
      induction segs with
      | nil => rfl
      | cons s rest ih =>
        cases s with
        | exifApp1 p => simpa [Segment.isExif] using ih
        | other m p => simpa [Segment.isExif] using ih
    simp [exifPayloads, insertExifSegments, h2]

/-- C3: for positive decoded dimensions the thumbnail dimensions of
lines 40-43 are the floors of the exactly scaled dimensions with
`ratio = min(160/w, 120/h)`; the width is at most 160, the height at
most 120, and each dimension is within one pixel of the exact value. -/
theorem C3_thumb_dims (w h : Nat) (hw : 0 < w) (hh : 0 < h) :
    thumbDims w h =
      ((⌊(w : ℚ) * thumbRatio w h⌋).toNat, (⌊(h : ℚ) * thumbRatio w h⌋).toNat) ∧
    (thumbDims w h).1 ≤ 160 ∧ (thumbDims w h).2 ≤ 120 ∧
    |((thumbDims w h).1 : ℚ) - (w : ℚ) * thumbRatio w h| < 1 ∧
    |((thumbDims w h).2 : ℚ) - (h : ℚ) * thumbRatio w h| < 1 := by
  have hw0 : (0 : ℚ) < (w : ℚ) := by exact_mod_cast hw
  have hh0 : (0 : ℚ) < (h : ℚ) := by exact_mod_cast hh
  have hr0 : 0 ≤ thumbRatio w h :=
    le_min (div_nonneg (by norm_num) hw0.le) (div_nonneg (by norm_num) hh0.le)
  have hwr0 : 0 ≤ (w : ℚ) * thumbRatio w h := mul_nonneg hw0.le hr0
  have hhr0 : 0 ≤ (h : ℚ) * thumbRatio w h := mul_nonneg hh0.le hr0
  have hwr160 : (w : ℚ) * thumbRatio w h ≤ 160 := by
    have h1 : thumbRatio w h ≤ 160 / (w : ℚ) := min_le_left _ _
    calc (w : ℚ) * thumbRatio w h ≤ (w : ℚ) * (160 / (w : ℚ)) :=
          mul_le_mul_of_nonneg_left h1 hw0.le
      _ = 160 := by field_simp
  have hhr120 : (h : ℚ) * thumbRatio w h ≤ 120 := by
    have h1 : thumbRatio w h ≤ 120 / (h : ℚ) := min_le_right _ _
    calc (h : ℚ) * thumbRatio w h ≤ (h : ℚ) * (120 / (h : ℚ)) :=
          mul_le_mul_of_nonneg_left h1 hh0.le
      _ = 120 := by field_simp
  have hfw0 : 0 ≤ ⌊(w : ℚ) * thumbRatio w h⌋ := Int.floor_nonneg.mpr hwr0
  have hfh0 : 0 ≤ ⌊(h : ℚ) * thumbRatio w h⌋ := Int.floor_nonneg.mpr hhr0
  have hcw : ((⌊(w : ℚ) * thumbRatio w h⌋.toNat : ℕ) : ℚ) =
      ((⌊(w : ℚ) * thumbRatio w h⌋ : ℤ) : ℚ) := by
    exact_mod_cast Int.toNat_of_nonneg hfw0
  have hch : ((⌊(h : ℚ) * thumbRatio w h⌋.toNat : ℕ) : ℚ) =
      ((⌊(h : ℚ) * thumbRatio w h⌋ : ℤ) : ℚ) := by
    exact_mod_cast Int.toNat_of_nonneg hfh0
  refine ⟨rfl, ?_, ?_, ?_, ?_⟩
  · have hle : ⌊(w : ℚ) * thumbRatio w h⌋ ≤ (160 : ℤ) := by
      have := Int.floor_le_floor hwr160
      simpa using this
    simpa [thumbDims] using Int.toNat_le.mpr hle
  · have hle : ⌊(h : ℚ) * thumbRatio w h⌋ ≤ (120 : ℤ) := by
      have := Int.floor_le_floor hhr120
      simpa using this
    simpa [thumbDims] using Int.toNat_le.mpr hle
  · have h1 : ((⌊(w : ℚ) * thumbRatio w h⌋ : ℤ) : ℚ) ≤ (w : ℚ) * thumbRatio w h :=
      Int.floor_le _
    have h2 : (w : ℚ) * thumbRatio w h < (⌊(w : ℚ) * thumbRatio w h⌋ : ℚ) + 1 :=
      Int.lt_floor_add_one _
    have h3 : ((thumbDims w h).1 : ℚ) = ((⌊(w : ℚ) * thumbRatio w h⌋ : ℤ) : ℚ) := by
      simp only [thumbDims]
      exact hcw
    rw [h3, abs_lt]
    constructor <;> linarith
  · have h1 : ((⌊(h : ℚ) * thumbRatio w h⌋ : ℤ) : ℚ) ≤ (h : ℚ) * thumbRatio w h :=
      Int.floor_le _
    have h2 : (h : ℚ) * thumbRatio w h < (⌊(h : ℚ) * thumbRatio w h⌋ : ℚ) + 1 :=
      Int.lt_floor_add_one _
    have h3 : ((thumbDims w h).2 : ℚ) = ((⌊(h : ℚ) * thumbRatio w h⌋ : ℤ) : ℚ) := by
      simp only [thumbDims]
      exact hch
    rw [h3, abs_lt]
    constructor <;> linarith

/-- Witness for C3 at 800×600: the scale is 0.2, the thumbnail is
160×120. -/
theorem C3_thumb_dims_witness :
    thumbDims 800 600 =
      ((⌊(800 : ℚ) * thumbRatio 800 600⌋).toNat, (⌊(600 : ℚ) * thumbRatio 800 600⌋).toNat) ∧
    (thumbDims 800 600).1 ≤ 160 ∧ (thumbDims 800 600).2 ≤ 120 ∧
    |((thumbDims 800 600).1 : ℚ) - (800 : ℚ) * thumbRatio 800 600| < 1 ∧
    |((thumbDims 800 600).2 : ℚ) - (600 : ℚ) * thumbRatio 800 600| < 1 :=
  C3_thumb_dims 800 600 (by norm_num) (by norm_num)

/-- C1: `process_single_file` is total — for every environment,
filesystem and Task it returns a Result whose status is one of
`SUCCESS`, `SKIPPED_EXISTS`, `FAILURE`; and whenever its body raises
(`processBody` yields an error `e`), the result is a `FAILURE` whose
message carries the exception text `e`, with the filesystem untouched. -/
theorem C1_total_function (env : Env) (fs : FS) (t : Task) :
    ((processSingleFile env fs t).1.1 = "SUCCESS" ∨
     (processSingleFile env fs t).1.1 = "SKIPPED_EXISTS" ∨
     (processSingleFile env fs t).1.1 = "FAILURE") ∧
    (∀ e, processBody env fs t = Except.error e →
      processSingleFile env fs t =
        (("FAILURE", "失败: " ++ env.basename t.fullPath ++ " (" ++ e ++ ")"), fs)) := by
  refine ⟨processSingleFile_status env fs t, ?_⟩
  intro e he
  simp [processSingleFile, he]

theorem runSingleProcess_length (env : Env) :
    ∀ (ts : List Task) (fs : FS),
      (runSingleProcess env fs ts).1.length = ts.length := by
  intro ts
  induction ts with
  | nil => intro fs; rfl
  | cons t ts ih =>
    intro fs
    simp [runSingleProcess, ih]

theorem runSingleProcess_statuses (env : Env) :
    ∀ (ts : List Task) (fs : FS) (r : Result),
      r ∈ (runSingleProcess env fs ts).1 →
      r.1 = "SUCCESS" ∨ r.1 = "SKIPPED_EXISTS" ∨ r.1 = "FAILURE" := by
  intro ts
  induction ts with
  | nil => intro fs r hr; simp [runSingleProcess] at hr
  | cons t ts ih =>
    intro fs r hr
    simp only [runSingleProcess, List.mem_cons] at hr
    rcases hr with hr | hr
    · rw [hr]; exact processSingleFile_status env fs t
    · exact ih _ r hr

theorem countP_status_sum (rs : List Result)
    (h : ∀ r ∈ rs, r.1 = "SUCCESS" ∨ r.1 = "SKIPPED_EXISTS" ∨ r.1 = "FAILURE") :
    rs.countP (fun r => decide (r.1 = "SUCCESS")) +
    rs.countP (fun r => decide (r.1 = "SKIPPED_EXISTS")) +
    rs.countP (fun r => decide (r.1 = "FAILURE")) = rs.length := by
  induction rs with
  | nil => simp
  | cons r rs ih =>
    have hr := h r (List.mem_cons_self r rs)
    have hrest := ih (fun x hx => h x (List.mem_cons_of_mem _ hx))
    simp only [List.countP_cons, List.length_cons]
    have d1 : ("SUCCESS" : String) ≠ "SKIPPED_EXISTS" := statusStrings_distinct.1
    have d2 : ("SUCCESS" : String) ≠ "FAILURE" := statusStrings_distinct.2.1
    have d3 : ("SKIPPED_EXISTS" : String) ≠ "FAILURE" := statusStrings_distinct.2.2
    rcases hr with h1 | h1 | h1 <;>
      simp only [h1, d1, d2, d3, Ne.symm d1, Ne.symm d2, Ne.symm d3] <;>
      simp <;> omega

theorem counts_sum (rs : List Result)
    (h : ∀ r ∈ rs, r.1 = "SUCCESS" ∨ r.1 = "SKIPPED_EXISTS" ∨ r.1 = "FAILURE") :
    (processResults rs).1 + (processResults rs).2.1 + (processResults rs).2.2 =
      rs.length := by
  rw [processResults_eq_countP]
  exact countP_status_sum rs h

/-- C10: every Result of `process_single_file` is tagged exactly one of
the three statuses; for a sequential batch the three counters of
`process_results` sum to the number of dispatched Tasks; and the
counters are invariant under any permutation of the Results (so the
unordered completion order of the parallel path does not matter). -/
theorem C10_counters_partition (env : Env) (fs : FS) :
    (∀ t : Task,
      ((processSingleFile env fs t).1.1 = "SUCCESS" ∧
       (processSingleFile env fs t).1.1 ≠ "SKIPPED_EXISTS" ∧
       (processSingleFile env fs t).1.1 ≠ "FAILURE") ∨
      ((processSingleFile env fs t).1.1 ≠ "SUCCESS" ∧
       (processSingleFile env fs t).1.1 = "SKIPPED_EXISTS" ∧
       (processSingleFile env fs t).1.1 ≠ "FAILURE") ∨
      ((processSingleFile env fs t).1.1 ≠ "SUCCESS" ∧
       (processSingleFile env fs t).1.1 ≠ "SKIPPED_EXISTS" ∧
       (processSingleFile env fs t).1.1 = "FAILURE")) ∧
    (∀ ts : List Task,
      (processResults (runSingleProcess env fs ts).1).1 +
      (processResults (runSingleProcess env fs ts).1).2.1 +
      (processResults (runSingleProcess env fs ts).1).2.2 = ts.length) ∧
    (∀ rs rs' : List Result, rs.Perm rs' → processResults rs = processResults rs') := by
  refine ⟨?_, ?_, ?_⟩
  · intro t
    have d1 : ("SUCCESS" : String) ≠ "SKIPPED_EXISTS" := statusStrings_distinct.1
    have d2 : ("SUCCESS" : String) ≠ "FAILURE" := statusStrings_distinct.2.1
    have d3 : ("SKIPPED_EXISTS" : String) ≠ "FAILURE" := statusStrings_distinct.2.2
    rcases processSingleFile_status env fs t with h | h | h
    · exact Or.inl ⟨h, by rw [h]; exact d1, by rw [h]; exact d2⟩
    · exact Or.inr (Or.inl ⟨by rw [h]; exact Ne.symm d1, h, by rw [h]; exact d3⟩)
    · exact Or.inr (Or.inr ⟨by rw [h]; exact Ne.symm d2, by rw [h]; exact Ne.symm d3, h⟩)
  · intro ts
    rw [counts_sum _ (fun r hr => runSingleProcess_statuses env ts fs r hr)]
    exact runSingleProcess_length env ts fs
  · intro rs rs' hperm
    rw [processResults_eq_countP, processResults_eq_countP]
    rw [hperm.countP_eq, hperm.countP_eq, hperm.countP_eq]

/-- The enqueue condition of the scan, stated as the spec words it: the
file cannot be read, or its EXIF fails to parse, or the parsed EXIF has
no thumbnail. -/
def shouldEnqueue (env : Env) (fs : FS) (p : Path) : Prop :=
  lookupFS fs p = none ∨
  ∃ b, lookupFS fs p = some b ∧
    ((∃ m, env.loadExif b = Except.error m) ∨
     ∃ d, env.loadExif b = Except.ok d ∧ d.thumbnail = none)

/-- Whether the file at `p` reads and parses with a thumbnail present
(the pre-skip condition of line 209). -/
def hasThumbB (env : Env) (fs : FS) (p : Path) : Bool :=
  match lookupFS fs p with
  | none => false
  | some b =>
    match env.loadExif b with
    | Except.error _ => false
    | Except.ok d => d.thumbnail.isSome

theorem shouldEnqueue_iff_not_hasThumb (env : Env) (fs : FS) (p : Path) :
    shouldEnqueue env fs p ↔ hasThumbB env fs p = false := by
  unfold shouldEnqueue hasThumbB
  cases hlk : lookupFS fs p with
  | none => simp
  | some b =>
    cases hld : env.loadExif b with
    | error m => simp [hld]
    | ok d => cases hth : d.thumbnail <;> simp [hld, hth]

theorem scanStep_mem (env : Env) (fs : FS) (outRoot : Path) (fmt pol : String)
    (inRoot : Path) (log : Bool) (folder : Path)
    (acc : List Task × Nat) (n : String) (t : Task) :
    t ∈ (scanStep env fs outRoot fmt pol inRoot log folder acc n).1 ↔
      t ∈ acc.1 ∨
      (isJpegName n = true ∧ shouldEnqueue env fs (env.joinPath folder n) ∧
        t = ⟨env.joinPath folder n, outRoot, fmt, pol, inRoot, log⟩) := by
  unfold scanStep shouldEnqueue
  by_cases hj : isJpegName n
  · rw [if_pos hj]
    cases hlk : lookupFS fs (env.joinPath folder n) with
    | none => simp [hj, hlk, eq_comm]
    | some b =>
      cases hld : env.loadExif b with
      | error m => simp [hj, hlk, hld, eq_comm]
      | ok d =>
        cases hth : d.thumbnail with
        | none => simp [hj, hlk, hld, hth, eq_comm]
        | some tb => simp [hj, hlk, hld, hth]
  · rw [if_neg hj]
    simp [hj]

theorem scanStep_count (env : Env) (fs : FS) (outRoot : Path) (fmt pol : String)
    (inRoot : Path) (log : Bool) (folder : Path)
    (acc : List Task × Nat) (n : String) :
    (scanStep env fs outRoot fmt pol inRoot log folder acc n).2 =
      acc.2 + (if isJpegName n && hasThumbB env fs (env.joinPath folder n) then 1 else 0) := by
  unfold scanStep hasThumbB
  by_cases hj : isJpegName n
  · rw [if_pos hj]
    cases hlk : lookupFS fs (env.joinPath folder n) with
    | none => simp [hj, hlk]
    | some b =>
      cases hld : env.loadExif b with
      | error m => simp [hj, hlk, hld]
      | ok d =>
        cases hth : d.thumbnail with
        | none => simp [hj, hlk, hld, hth]
        | some tb => simp [hj, hlk, hld, hth]
  · rw [if_neg hj]
    simp [hj]

theorem scanFolder_mem (env : Env) (fs : FS) (outRoot : Path) (fmt pol : String)
    (inRoot : Path) (log : Bool) (folder : Path) :
    ∀ (names : List String) (acc : List Task × Nat) (t : Task),
      t ∈ (names.foldl (scanStep env fs outRoot fmt pol inRoot log folder) acc).1 ↔
        t ∈ acc.1 ∨
        ∃ n ∈ names, isJpegName n = true ∧ shouldEnqueue env fs (env.joinPath folder n) ∧
          t = ⟨env.joinPath folder n, outRoot, fmt, pol, inRoot, log⟩ := by
  intro names
  induction names with
  | nil => intro acc t; simp
  | cons n ns ih =>
    intro acc t
    rw [List.foldl_cons, ih, scanStep_mem]
    constructor
    · rintro ((h | h) | ⟨n', hn', h⟩)
      · exact Or.inl h
      · exact Or.inr ⟨n, List.mem_cons_self n ns, h⟩
      · exact Or.inr ⟨n', List.mem_cons_of_mem _ hn', h⟩
    · rintro (h | ⟨n', hn', h⟩)
      · exact Or.inl (Or.inl h)
      · rcases List.mem_cons.mp hn' with rfl | hn'
        · exact Or.inl (Or.inr h)
        · exact Or.inr ⟨n', hn', h⟩

theorem scanFolder_count (env : Env) (fs : FS) (outRoot : Path) (fmt pol : String)
    (inRoot : Path) (log : Bool) (folder : Path) :
    ∀ (names : List String) (acc : List Task × Nat),
      (names.foldl (scanStep env fs outRoot fmt pol inRoot log folder) acc).2 =
        acc.2 + names.countP
          (fun n => isJpegName n && hasThumbB env fs (env.joinPath folder n)) := by
  intro names
  induction names with
  | nil => intro acc; simp
  | cons n ns ih =>
    intro acc
    rw [List.foldl_cons, ih, scanStep_count, List.countP_cons]
    by_cases h : isJpegName n && hasThumbB env fs (env.joinPath folder n)
    · simp [h]; omega
    · simp [h]

theorem scanWalk_mem_aux (env : Env) (fs : FS) (outRoot : Path) (fmt pol : String)
    (inRoot : Path) (log : Bool) :
    ∀ (entries : List (Path × List String)) (acc : List Task × Nat) (t : Task),
      t ∈ (entries.foldl (scanFolder env fs outRoot fmt pol inRoot log) acc).1 ↔
        t ∈ acc.1 ∨
        ∃ e ∈ entries, ∃ n ∈ e.2,
          isJpegName n = true ∧ shouldEnqueue env fs (env.joinPath e.1 n) ∧
          t = ⟨env.joinPath e.1 n, outRoot, fmt, pol, inRoot, log⟩ := by
  intro entries
  induction entries with
  | nil => intro acc t; simp
  | cons e es ih =>
    intro acc t
    rw [List.foldl_cons, ih]
    have hhead : t ∈ (scanFolder env fs outRoot fmt pol inRoot log acc e).1 ↔
        t ∈ acc.1 ∨ ∃ n ∈ e.2, isJpegName n = true ∧
          shouldEnqueue env fs (env.joinPath e.1 n) ∧
          t = ⟨env.joinPath e.1 n, outRoot, fmt, pol, inRoot, log⟩ :=
      scanFolder_mem env fs outRoot fmt pol inRoot log e.1 e.2 acc t
    rw [hhead]
    constructor
    · rintro ((h | ⟨n, hn, h⟩) | ⟨e', he', h⟩)
      · exact Or.inl h
      · exact Or.inr ⟨e, List.mem_cons_self e es, n, hn, h⟩
      · exact Or.inr ⟨e', List.mem_cons_of_mem _ he', h⟩
    · rintro (h | ⟨e', he', h⟩)
      · exact Or.inl (Or.inl h)
      · rcases List.mem_cons.mp he' with rfl | he'
        · exact Or.inl (Or.inr h)
        · exact Or.inr ⟨e', he', h⟩

theorem scanWalk_count_aux (env : Env) (fs : FS) (outRoot : Path) (fmt pol : String)
    (inRoot : Path) (log : Bool) :
    ∀ (entries : List (Path × List String)) (acc : List Task × Nat),
      (entries.foldl (scanFolder env fs outRoot fmt pol inRoot log) acc).2 =
        acc.2 + (entries.map (fun e => e.2.countP
          (fun n => isJpegName n && hasThumbB env fs (env.joinPath e.1 n)))).sum := by
  intro entries
  induction entries with
  | nil => intro acc; simp
  | cons e es ih =>
    intro acc
    rw [List.foldl_cons, ih]
    have hhead : (scanFolder env fs outRoot fmt pol inRoot log acc e).2 =
        acc.2 + e.2.countP
          (fun n => isJpegName n && hasThumbB env fs (env.joinPath e.1 n)) :=
      scanFolder_count env fs outRoot fmt pol inRoot log e.1 e.2 acc
    rw [hhead]
    simp [Nat.add_assoc]

/-- C7: during the scan a Task for a walked file is enqueued iff its
name ends in `.jpg`/`.jpeg` case-insensitively and the file fails to
read/parse or its parsed EXIF has no thumbnail; and the pre-skipped
count is exactly the number of walked JPEG-named files whose EXIF
parses with a thumbnail present. -/
theorem C7_scan_filter (env : Env) (fs : FS) (outRoot : Path) (fmt pol : String)
    (inRoot : Path) (log : Bool) (entries : List (Path × List String)) :
    (∀ t : Task,
      t ∈ (scanWalk env fs outRoot fmt pol inRoot log entries).1 ↔
        ∃ e ∈ entries, ∃ n ∈ e.2,
          isJpegName n = true ∧ shouldEnqueue env fs (env.joinPath e.1 n) ∧
          t = ⟨env.joinPath e.1 n, outRoot, fmt, pol, inRoot, log⟩) ∧
    (scanWalk env fs outRoot fmt pol inRoot log entries).2 =
      (entries.map (fun e => e.2.countP
        (fun n => isJpegName n && hasThumbB env fs (env.joinPath e.1 n)))).sum ∧
    (∀ p : Path, shouldEnqueue env fs p ↔ hasThumbB env fs p = false) := by
  refine ⟨?_, ?_, shouldEnqueue_iff_not_hasThumb env fs⟩
  · intro t
    unfold scanWalk
    rw [scanWalk_mem_aux]
    simp
  · unfold scanWalk
    rw [scanWalk_count_aux]
    simp

/-- Concrete bytes for test runs. -/
def cBytes : Bytes := [1, 2, 3]

/-- A concrete decoded image shape. -/
def cImg : Img := ⟨120, 160⟩

/-- A concrete environment in which every external call succeeds. -/
def testEnv : Env :=
  ⟨fun _ => Except.ok emptyExifDict,
   fun _ => some cImg,
   fun i _ _ => i,
   fun _ => (true, cBytes),
   fun _ => Except.ok cBytes,
   fun e b => Except.ok (e ++ b),
   fun p => p,
   fun _ => "d",
   fun p => (p, ""),
   fun s _ _ => s,
   fun a _ => a,
   fun a b => a ++ "/" ++ b,
   fun _ => Except.ok (),
   fun _ => Except.ok ()⟩

/-- `testEnv` with an EXIF parser that always raises. -/
def failLoadEnv : Env :=
  ⟨fun _ => Except.error "bad exif",
   fun _ => some cImg,
   fun i _ _ => i,
   fun _ => (true, cBytes),
   fun _ => Except.ok cBytes,
   fun e b => Except.ok (e ++ b),
   fun p => p,
   fun _ => "d",
   fun p => (p, ""),
   fun s _ _ => s,
   fun a _ => a,
   fun a b => a ++ "/" ++ b,
   fun _ => Except.ok (),
   fun _ => Except.ok ()⟩

/-- A task with the `skip` conflict policy. -/
def skipTask : Task := ⟨"in/a.jpg", "out", "{Filename}-thumb", "skip", "in", false⟩

/-- A task with the `overwrite` conflict policy. -/
def overwriteTask : Task := ⟨"in/a.jpg", "out", "{Filename}-thumb", "overwrite", "in", false⟩

/-- A task with the `rename` conflict policy. -/
def renameTask : Task := ⟨"in/a.jpg", "out", "{Filename}-thumb", "rename", "in", false⟩

/-- A filesystem holding only the source file. -/
def srcFS : FS := [("in/a.jpg", cBytes)]

/-- A filesystem holding the source file and a pre-existing file at the
destination the tasks above compute under `testEnv`. -/
def conflictFS : FS := [("in/a.jpg", cBytes), ("out/d/{Filename}-thumb", [9])]

theorem withEmptyLoad_loadExif (env : Env) (b : Bytes) :
    (withEmptyLoad env).loadExif b = Except.ok emptyExifDict := rfl

theorem withEmptyLoad_imdecode (env : Env) : (withEmptyLoad env).imdecode = env.imdecode := rfl

theorem withEmptyLoad_resize (env : Env) : (withEmptyLoad env).resize = env.resize := rfl

theorem withEmptyLoad_imencode (env : Env) : (withEmptyLoad env).imencode = env.imencode := rfl

theorem withEmptyLoad_dumpExif (env : Env) : (withEmptyLoad env).dumpExif = env.dumpExif := rfl

theorem withEmptyLoad_insertExif (env : Env) :
    (withEmptyLoad env).insertExif = env.insertExif := rfl

theorem withEmptyLoad_basename (env : Env) : (withEmptyLoad env).basename = env.basename := rfl

theorem withEmptyLoad_splitext (env : Env) : (withEmptyLoad env).splitext = env.splitext := rfl

theorem withEmptyLoad_makedirs (env : Env) : (withEmptyLoad env).makedirs = env.makedirs := rfl

theorem withEmptyLoad_writeFile (env : Env) :
    (withEmptyLoad env).writeFile = env.writeFile := rfl

theorem withEmptyLoad_newFilenameOf (env : Env) (t : Task) :
    newFilenameOf (withEmptyLoad env) t = newFilenameOf env t := rfl

theorem withEmptyLoad_outputFolderOf (env : Env) (t : Task) :
    outputFolderOf (withEmptyLoad env) t = outputFolderOf env t := rfl

theorem withEmptyLoad_outputPathOf (env : Env) (t : Task) :
    outputPathOf (withEmptyLoad env) t = outputPathOf env t := rfl

/-- C5: when `piexif.load` raises on the bytes read (lines 31-34), the
worker behaves exactly as if the parse had returned the empty EXIF
container of line 34, and proceeds; in particular an EXIF parse failure
alone never produces a FAILURE result — a FAILURE can only arise from a
step that would also fail with the empty container substituted. -/
theorem C5_parse_failure_recovered (env : Env) (fs : FS) (t : Task) (ob : Bytes) (m : String)
    (hob : lookupFS fs t.fullPath = some ob)
    (hload : env.loadExif ob = Except.error m) :
    processSingleFile env fs t = processSingleFile (withEmptyLoad env) fs t ∧
    ((processSingleFile (withEmptyLoad env) fs t).1.1 ≠ "FAILURE" →
      (processSingleFile env fs t).1.1 ≠ "FAILURE") := by
  have h1 : processSingleFile env fs t = processSingleFile (withEmptyLoad env) fs t := by
    simp [processSingleFile, processBody, computeOutput, hob, hload,
      withEmptyLoad_loadExif, withEmptyLoad_imdecode, withEmptyLoad_resize,
      withEmptyLoad_imencode, withEmptyLoad_dumpExif, withEmptyLoad_insertExif,
      withEmptyLoad_basename, withEmptyLoad_splitext, withEmptyLoad_makedirs,
      withEmptyLoad_writeFile, withEmptyLoad_newFilenameOf,
      withEmptyLoad_outputFolderOf, withEmptyLoad_outputPathOf]
  exact ⟨h1, fun h => by rw [h1]; exact h⟩

/-- Witness for C5: a concrete environment whose EXIF parser always
raises still processes the file as with the empty container. -/
theorem C5_parse_failure_recovered_witness :
    processSingleFile failLoadEnv srcFS skipTask =
      processSingleFile (withEmptyLoad failLoadEnv) srcFS skipTask ∧
    ((processSingleFile (withEmptyLoad failLoadEnv) srcFS skipTask).1.1 ≠ "FAILURE" →
      (processSingleFile failLoadEnv srcFS skipTask).1.1 ≠ "FAILURE") :=
  C5_parse_failure_recovered failLoadEnv srcFS skipTask cBytes "bad exif" rfl rfl

/-- C9: for any conflict policy other than `skip` and `rename` —
`overwrite`, but also any unrecognized string — when the destination
exists the worker falls through the lines 72-83 dispatch and writes to
the computed destination anyway, replacing the existing contents. -/
theorem C9_fallthrough_overwrites (env : Env) (fs : FS) (t : Task) (ob outB : Bytes)
    (hp1 : t.conflictResolution ≠ "skip")
    (hp2 : t.conflictResolution ≠ "rename")
    (hob : lookupFS fs t.fullPath = some ob)
    (hco : computeOutput env ob (env.basename t.fullPath) = Except.ok (Sum.inr outB))
    (hmk : env.makedirs (outputFolderOf env t) = Except.ok ())
    (hex : fsExists fs (outputPathOf env t) = true)
    (hwr : env.writeFile (outputPathOf env t) = Except.ok ()) :
    processSingleFile env fs t =
      (("SUCCESS", "已处理: " ++ env.basename t.fullPath ++ " -> " ++
        env.basename (outputPathOf env t)),
       fsWrite fs (outputPathOf env t) outB) ∧
    lookupFS (processSingleFile env fs t).2 (outputPathOf env t) = some outB := by
  have h := processSingleFile_fallthrough env fs t ob outB hob hco hmk hex hp1 hp2 hwr
  refine ⟨h, ?_⟩
  rw [h]
  exact lookupFS_write_self fs (outputPathOf env t) outB

/-- Witness for C9: the `overwrite` policy replaces a pre-existing
destination file. -/
theorem C9_fallthrough_overwrites_witness :
    processSingleFile testEnv conflictFS overwriteTask =
      (("SUCCESS", "已处理: " ++ testEnv.basename overwriteTask.fullPath ++ " -> " ++
        testEnv.basename (outputPathOf testEnv overwriteTask)),
       fsWrite conflictFS (outputPathOf testEnv overwriteTask) (cBytes ++ cBytes)) ∧
    lookupFS (processSingleFile testEnv conflictFS overwriteTask).2
      (outputPathOf testEnv overwriteTask) = some (cBytes ++ cBytes) :=
  C9_fallthrough_overwrites testEnv conflictFS overwriteTask cBytes (cBytes ++ cBytes)
    (by decide) (by decide) rfl rfl rfl (by decide) rfl

/-- The count equality claimed for two skip-policy runs fails when a
destination already exists before the first run: with one skip-policy
task whose destination pre-exists, the second run's skipped-exists
count is 1 while the first run's processed count is 0. -/
theorem C8_skip_counts_counterexample :
    ¬ ((processResults (runSingleProcess testEnv
          (runSingleProcess testEnv conflictFS [skipTask]).2 [skipTask]).1).2.1 =
       (processResults (runSingleProcess testEnv conflictFS [skipTask]).1).1) := by
  decide

theorem fsExists_of_lookup_some {fs : FS} {p : Path} {b : Bytes}
    (h : lookupFS fs p = some b) : fsExists fs p = true := by
  unfold fsExists
  rw [h]
  rfl

theorem lookup_none_of_not_exists {fs : FS} {p : Path}
    (h : fsExists fs p = false) : lookupFS fs p = none := by
  unfold fsExists at h
  cases hl : lookupFS fs p with
  | none => rfl
  | some b => rw [hl] at h; simp at h

/-- With the `skip` or `rename` policy, one worker run never changes the
contents of any pre-existing file: `skip` writes only to a non-existing
destination, and `rename` writes only to the first free candidate. -/
theorem processSingleFile_no_overwrite (env : Env) (g : FS) (t : Task)
    (hpol : t.conflictResolution = "skip" ∨ t.conflictResolution = "rename") :
    ∀ p, fsExists g p = true →
      lookupFS (processSingleFile env g t).2 p = lookupFS g p := by
  intro p hp
  cases hob : lookupFS g t.fullPath with
  | none => rw [processSingleFile_read_fail env g t hob]
  | some ob =>
    cases hco : computeOutput env ob (env.basename t.fullPath) with
    | error e => rw [processSingleFile_body_err env g t ob e hob hco]
    | ok v =>
      cases v with
      | inl m => rw [processSingleFile_early_failure env g t ob m hob hco]
      | inr outB =>
        cases hmk : env.makedirs (outputFolderOf env t) with
        | error e => rw [processSingleFile_mkdir_err env g t ob outB e hob hco hmk]
        | ok u =>
          cases u
          cases hex : fsExists g (outputPathOf env t) with
          | false =>
            have hne : p ≠ outputPathOf env t := by
              intro he
              rw [← he, hp] at hex
              exact Bool.noConfusion hex
            cases hwr : env.writeFile (outputPathOf env t) with
            | error e => rw [processSingleFile_write_err env g t ob outB e hob hco hmk hex hwr]
            | ok u2 =>
              cases u2
              rw [processSingleFile_write_new env g t ob outB hob hco hmk hex hwr]
              exact lookupFS_write_ne g (outputPathOf env t) outB hne
          | true =>
            rcases hpol with hsk | hrn
            · rw [processSingleFile_skip env g t ob outB hob hco hmk hsk hex]
            · have htne : p ≠ renameTarget g (env.splitext (outputPathOf env t)).1
                  (env.splitext (outputPathOf env t)).2 := by
                intro he
                have hf := renameTarget_not_exists g (env.splitext (outputPathOf env t)).1
                  (env.splitext (outputPathOf env t)).2
                rw [← he, hp] at hf
                exact Bool.noConfusion hf
              cases hwr : env.writeFile (renameTarget g (env.splitext (outputPathOf env t)).1
                  (env.splitext (outputPathOf env t)).2) with
              | error e =>
                rw [processSingleFile_rename_write_err env g t ob outB e hob hco hmk hex hrn hwr]
              | ok u2 =>
                cases u2
                rw [processSingleFile_rename env g t ob outB hob hco hmk hex hrn hwr]
                exact lookupFS_write_ne g _ outB htne

/-- Preservation of pre-existing files across a whole sequential batch
of skip/rename tasks. -/
theorem runNoOverwrite (env : Env) :
    ∀ (ts : List Task) (fs : FS),
      (∀ t ∈ ts, t.conflictResolution = "skip" ∨ t.conflictResolution = "rename") →
      ∀ p, fsExists fs p = true →
        lookupFS (runSingleProcess env fs ts).2 p = lookupFS fs p := by
  intro ts
  induction ts with
  | nil => intro fs _ p hp; rfl
  | cons t ts ih =>
    intro fs hpol p hp
    have h1 := processSingleFile_no_overwrite env fs t (hpol t (List.mem_cons_self t ts)) p hp
    have hp' : fsExists (processSingleFile env fs t).2 p = true := by
      unfold fsExists
      rw [h1]
      exact hp
    have h2 := ih (processSingleFile env fs t).2
      (fun u hu => hpol u (List.mem_cons_of_mem _ hu)) p hp'
    show lookupFS (runSingleProcess env (processSingleFile env fs t).2 ts).2 p = lookupFS fs p
    rw [h2, h1]

theorem runNTimes_succ (env : Env) (t : Task) :
    ∀ (n : Nat) (fs : FS),
      runNTimes env t (n + 1) fs = (processSingleFile env (runNTimes env t n fs) t).2 := by
  intro n
  induction n with
  | zero => intro fs; rfl
  | succ m ih =>
    intro fs
    show runNTimes env t (m + 1) (processSingleFile env fs t).2 = _
    rw [ih (processSingleFile env fs t).2]
    rfl

/-- The state after `k ≥ 1` rename-policy runs of the same task: the
destination and the candidates 2..k hold the output bytes, everything
else is as in the initial filesystem. -/
theorem renameChainInvariant (env : Env) (t : Task) (fs0 : FS) (ob outB : Bytes)
    (np ep : String)
    (hpol : t.conflictResolution = "rename")
    (hsplit : env.splitext (outputPathOf env t) = (np, ep))
    (hob : lookupFS fs0 t.fullPath = some ob)
    (hco : computeOutput env ob (env.basename t.fullPath) = Except.ok (Sum.inr outB))
    (hmk : env.makedirs (outputFolderOf env t) = Except.ok ())
    (hwr : ∀ p, env.writeFile p = Except.ok ())
    (hdest : fsExists fs0 (outputPathOf env t) = false)
    (hcand : ∀ c, fsExists fs0 (candidateName np ep c) = false)
    (hne : ∀ c, candidateName np ep c ≠ outputPathOf env t) :
    ∀ k, 1 ≤ k →
      lookupFS (runNTimes env t k fs0) (outputPathOf env t) = some outB ∧
      (∀ c, 2 ≤ c → c ≤ k →
        lookupFS (runNTimes env t k fs0) (candidateName np ep c) = some outB) ∧
      (∀ p, p ≠ outputPathOf env t →
        (∀ c, 2 ≤ c → c ≤ k → p ≠ candidateName np ep c) →
        lookupFS (runNTimes env t k fs0) p = lookupFS fs0 p) := by
  intro k
  induction k with
  | zero => intro h; omega
  | succ k ih =>
    intro _
    by_cases hk : k = 0
    · subst hk
      have hstep := processSingleFile_write_new env fs0 t ob outB hob hco hmk hdest (hwr _)
      have hrun : runNTimes env t 1 fs0 = (processSingleFile env fs0 t).2 := rfl
      rw [hrun, hstep]
      refine ⟨lookupFS_write_self fs0 _ outB, ?_, ?_⟩
      · intro c h2 hck; omega
      · intro p hpd _
        exact lookupFS_write_ne fs0 _ outB hpd
    · have hk1 : 1 ≤ k := Nat.pos_of_ne_zero hk
      obtain ⟨ha, hb, hc⟩ := ih hk1
      have hgsucc := runNTimes_succ env t k fs0
      have hobg : lookupFS (runNTimes env t k fs0) t.fullPath = some ob := by
        rw [hc t.fullPath ?nd ?nc]
        · exact hob
        case nd =>
          intro he
          rw [← he] at hdest
          rw [lookup_none_of_not_exists hdest] at hob
          exact Option.noConfusion hob
        case nc =>
          intro c _ _ he
          have hcf := hcand c
          rw [← he] at hcf
          rw [lookup_none_of_not_exists hcf] at hob
          exact Option.noConfusion hob
      have hexg : fsExists (runNTimes env t k fs0) (outputPathOf env t) = true :=
        fsExists_of_lookup_some ha
      have htarget : renameTarget (runNTimes env t k fs0) np ep =
          candidateName np ep (k + 1) := by
        have hkm : k - 1 + 2 = k + 1 := by omega
        rw [← hkm]
        apply renameTarget_eq
        · rw [hkm]
          unfold fsExists
          rw [hc (candidateName np ep (k + 1)) (hne _) ?freecand]
          · rw [lookup_none_of_not_exists (hcand (k + 1))]
            rfl
          case freecand =>
            intro c _ hck he
            have := candidateName_inj np ep he
            omega
        · intro j hj
          apply fsExists_of_lookup_some
          exact hb (j + 2) (by omega) (by omega)
      have hstep := processSingleFile_rename env (runNTimes env t k fs0) t ob outB hobg hco
        hmk hexg hpol (by rw [hsplit]; exact hwr _)
      rw [hsplit] at hstep
      simp only at hstep
      rw [htarget] at hstep
      rw [hgsucc, hstep]
      refine ⟨?_, ?_, ?_⟩
      · rw [lookupFS_write_ne _ _ outB (Ne.symm (hne (k + 1)))]
        exact ha
      · intro c h2 hck
        by_cases hc' : c = k + 1
        · subst hc'
          exact lookupFS_write_self _ _ outB
        · rw [lookupFS_write_ne _ _ outB ?cne]
          · exact hb c h2 (by omega)
          case cne =>
            intro he
            exact hc' (candidateName_inj np ep he)
      · intro p hpd hpc
        rw [lookupFS_write_ne _ _ outB (hpc (k + 1) (by omega) (by omega))]
        exact hc p hpd (fun c h2 hck => hpc c h2 (by omega))

theorem natToString_length_pos (n : Nat) : 1 ≤ (natToString n).length := by
  unfold natToString
  by_cases hn : n = 0
  · rw [if_pos hn]; decide
  · rw [if_neg hn]
    have hne := natToStringAux_ne_nil n n hn (Nat.le_refl n)
    exact List.length_pos.mpr hne

theorem candidateName_length (np ep : String) (c : Nat) :
    (candidateName np ep c).length =
      np.length + 2 + (natToString c).length + 1 + ep.length := by
  have h1 : (" (" : String).length = 2 := rfl
  have h2 : (")" : String).length = 1 := rfl
  simp [candidateName, String.length_append, h1, h2]

theorem ne_of_length_ne {a b : String} (h : a.length ≠ b.length) : a ≠ b :=
  fun he => h (he ▸ rfl)

theorem fsExists_single_ne {p q : Path} {b : Bytes} (h : q ≠ p) :
    fsExists [(p, b)] q = false := by
  simp [fsExists, lookupFS, h]

/-- C6: under the `rename` policy `process_single_file` never overwrites
any existing file, and running the batch `N ≥ 1` times against the same
(initially free) destination produces `N` distinct files: the
destination itself and then the candidates suffixed `" (2)"` … `" (N)"`,
with no higher-numbered candidate created and every pre-existing file
byte-identical. -/
theorem C6_rename_never_overwrites (env : Env) (t : Task) (fs0 : FS) (ob outB : Bytes)
    (np ep : String) (N : Nat)
    (hpol : t.conflictResolution = "rename")
    (hsplit : env.splitext (outputPathOf env t) = (np, ep))
    (hob : lookupFS fs0 t.fullPath = some ob)
    (hco : computeOutput env ob (env.basename t.fullPath) = Except.ok (Sum.inr outB))
    (hmk : env.makedirs (outputFolderOf env t) = Except.ok ())
    (hwr : ∀ p, env.writeFile p = Except.ok ())
    (hdest : fsExists fs0 (outputPathOf env t) = false)
    (hcand : ∀ c, fsExists fs0 (candidateName np ep c) = false)
    (hne : ∀ c, candidateName np ep c ≠ outputPathOf env t)
    (hN : 1 ≤ N) :
    (∀ g p, fsExists g p = true →
      lookupFS (processSingleFile env g t).2 p = lookupFS g p) ∧
    fsExists (runNTimes env t N fs0) (outputPathOf env t) = true ∧
    (∀ c, 2 ≤ c → c ≤ N →
      fsExists (runNTimes env t N fs0) (candidateName np ep c) = true) ∧
    (∀ c, N < c →
      fsExists (runNTimes env t N fs0) (candidateName np ep c) = false) ∧
    (∀ p, fsExists fs0 p = true →
      lookupFS (runNTimes env t N fs0) p = lookupFS fs0 p) ∧
    (∀ c c', candidateName np ep c = candidateName np ep c' → c = c') := by
  obtain ⟨ha, hb, hc⟩ := renameChainInvariant env t fs0 ob outB np ep hpol hsplit hob hco
    hmk hwr hdest hcand hne N hN
  refine ⟨?_, fsExists_of_lookup_some ha, ?_, ?_, ?_, fun c c' => candidateName_inj np ep⟩
  · intro g p hp
    exact processSingleFile_no_overwrite env g t (Or.inr hpol) p hp
  · intro c h2 hcN
    exact fsExists_of_lookup_some (hb c h2 hcN)
  · intro c hNc
    unfold fsExists
    rw [hc (candidateName np ep c) (hne c) ?chigh]
    · rw [lookup_none_of_not_exists (hcand c)]
      rfl
    case chigh =>
      intro c' _ hc'N he
      have := candidateName_inj np ep he
      omega
  · intro p hp
    apply hc p
    · intro he
      rw [← he, hp] at hdest
      exact Bool.noConfusion hdest
    · intro c _ _ he
      have hcf := hcand c
      rw [← he, hp] at hcf
      exact Bool.noConfusion hcf

/-- Witness for C6: three rename-policy runs on a fresh destination
create the destination plus the " (2)" and " (3)" candidates. -/
theorem C6_rename_never_overwrites_witness :
    (∀ g p, fsExists g p = true →
      lookupFS (processSingleFile testEnv g renameTask).2 p = lookupFS g p) ∧
    fsExists (runNTimes testEnv renameTask 3 srcFS) (outputPathOf testEnv renameTask) = true ∧
    (∀ c, 2 ≤ c → c ≤ 3 →
      fsExists (runNTimes testEnv renameTask 3 srcFS)
        (candidateName "out/d/{Filename}-thumb" "" c) = true) ∧
    (∀ c, 3 < c →
      fsExists (runNTimes testEnv renameTask 3 srcFS)
        (candidateName "out/d/{Filename}-thumb" "" c) = false) ∧
    (∀ p, fsExists srcFS p = true →
      lookupFS (runNTimes testEnv renameTask 3 srcFS) p = lookupFS srcFS p) ∧
    (∀ c c', candidateName "out/d/{Filename}-thumb" "" c =
      candidateName "out/d/{Filename}-thumb" "" c' → c = c') := by
  have hlen : ∀ c : Nat, (candidateName "out/d/{Filename}-thumb" "" c).length =
      25 + (natToString c).length := by
    intro c
    have h := candidateName_length "out/d/{Filename}-thumb" "" c
    have h22 : ("out/d/{Filename}-thumb" : String).length = 22 := rfl
    have h0 : ("" : String).length = 0 := rfl
    omega
  have hcand : ∀ c, fsExists srcFS (candidateName "out/d/{Filename}-thumb" "" c) = false := by
    intro c
    apply fsExists_single_ne
    apply ne_of_length_ne
    have h1 := hlen c
    have h2 := natToString_length_pos c
    have h8 : ("in/a.jpg" : String).length = 8 := rfl
    omega
  have hne : ∀ c, candidateName "out/d/{Filename}-thumb" "" c ≠
      outputPathOf testEnv renameTask := by
    intro c
    have hop : outputPathOf testEnv renameTask = "out/d/{Filename}-thumb" := rfl
    rw [hop]
    apply ne_of_length_ne
    have h1 := hlen c
    have h2 := natToString_length_pos c
    have h22 : ("out/d/{Filename}-thumb" : String).length = 22 := rfl
    omega
  exact C6_rename_never_overwrites testEnv renameTask srcFS cBytes (cBytes ++ cBytes)
    "out/d/{Filename}-thumb" "" 3 rfl rfl rfl rfl rfl (fun _ => rfl) (by decide)
    hcand hne (by decide)

theorem fsExists_write_mono {fs : FS} {p : Path} (q : Path) (b : Bytes)
    (h : fsExists fs p = true) : fsExists (fsWrite fs q b) p = true := by
  by_cases hpq : p = q
  · subst hpq; exact fsExists_write_self fs p b
  · rw [fsExists_write_ne fs q b hpq]; exact h

theorem fsExists_write_elim {fs : FS} {p q : Path} {b : Bytes}
    (h : fsExists (fsWrite fs q b) p = true) : p = q ∨ fsExists fs p = true := by
  by_cases hpq : p = q
  · exact Or.inl hpq
  · rw [fsExists_write_ne fs q b hpq] at h
    exact Or.inr h

/-- Any path existing after one worker run either existed before or is a
path whose write succeeds in this environment. -/
theorem processSingleFile_written (env : Env) (g : FS) (t : Task) :
    ∀ p, fsExists (processSingleFile env g t).2 p = true →
      fsExists g p = true ∨ env.writeFile p = Except.ok () := by
  intro p hp
  cases hob : lookupFS g t.fullPath with
  | none => rw [processSingleFile_read_fail env g t hob] at hp; exact Or.inl hp
  | some ob =>
    cases hco : computeOutput env ob (env.basename t.fullPath) with
    | error e => rw [processSingleFile_body_err env g t ob e hob hco] at hp; exact Or.inl hp
    | ok v =>
      cases v with
      | inl m =>
        rw [processSingleFile_early_failure env g t ob m hob hco] at hp
        exact Or.inl hp
      | inr outB =>
        cases hmk : env.makedirs (outputFolderOf env t) with
        | error e =>
          rw [processSingleFile_mkdir_err env g t ob outB e hob hco hmk] at hp
          exact Or.inl hp
        | ok u =>
          cases u
          cases hex : fsExists g (outputPathOf env t) with
          | false =>
            cases hwr : env.writeFile (outputPathOf env t) with
            | error e =>
              rw [processSingleFile_write_err env g t ob outB e hob hco hmk hex hwr] at hp
              exact Or.inl hp
            | ok u2 =>
              cases u2
              rw [processSingleFile_write_new env g t ob outB hob hco hmk hex hwr] at hp
              rcases fsExists_write_elim hp with rfl | hold
              · exact Or.inr hwr
              · exact Or.inl hold
          | true =>
            by_cases hsk : t.conflictResolution = "skip"
            · rw [processSingleFile_skip env g t ob outB hob hco hmk hsk hex] at hp
              exact Or.inl hp
            · by_cases hrn : t.conflictResolution = "rename"
              · cases hwr : env.writeFile (renameTarget g (env.splitext (outputPathOf env t)).1
                    (env.splitext (outputPathOf env t)).2) with
                | error e =>
                  rw [processSingleFile_rename_write_err env g t ob outB e hob hco hmk hex
                    hrn hwr] at hp
                  exact Or.inl hp
                | ok u2 =>
                  cases u2
                  rw [processSingleFile_rename env g t ob outB hob hco hmk hex hrn hwr] at hp
                  rcases fsExists_write_elim hp with rfl | hold
                  · exact Or.inr hwr
                  · exact Or.inl hold
              · cases hwr : env.writeFile (outputPathOf env t) with
                | error e =>
                  rw [processSingleFile_fallthrough_write_err env g t ob outB e hob hco hmk hex
                    hsk hrn hwr] at hp
                  exact Or.inl hp
                | ok u2 =>
                  cases u2
                  rw [processSingleFile_fallthrough env g t ob outB hob hco hmk hex hsk
                    hrn hwr] at hp
                  rcases fsExists_write_elim hp with rfl | hold
                  · exact Or.inr hwr
                  · exact Or.inl hold

theorem runWritten (env : Env) :
    ∀ (ts : List Task) (fs : FS) (p : Path),
      fsExists (runSingleProcess env fs ts).2 p = true →
      fsExists fs p = true ∨ env.writeFile p = Except.ok () := by
  intro ts
  induction ts with
  | nil => intro fs p hp; exact Or.inl hp
  | cons t ts ih =>
    intro fs p hp
    have hp' : fsExists (runSingleProcess env (processSingleFile env fs t).2 ts).2 p = true := hp
    rcases ih (processSingleFile env fs t).2 p hp' with hmid | hw
    · exact processSingleFile_written env fs t p hmid
    · exact Or.inr hw

theorem runSingleProcess_cons (env : Env) (fs : FS) (t : Task) (ts : List Task) :
    runSingleProcess env fs (t :: ts) =
      ((processSingleFile env fs t).1 ::
        (runSingleProcess env (processSingleFile env fs t).2 ts).1,
       (runSingleProcess env (processSingleFile env fs t).2 ts).2) := rfl

/-- The relation between a task's first-run and second-run Results under
the skip policy: a success becomes a skip, a skip stays a skip, a
failure stays a failure. -/
def secondRunStatus (r1 r2 : Result) : Prop :=
  (r1.1 = "SUCCESS" → r2.1 = "SKIPPED_EXISTS") ∧
  (r1.1 = "SKIPPED_EXISTS" → r2.1 = "SKIPPED_EXISTS") ∧
  (r1.1 = "FAILURE" → r2.1 = "FAILURE")

theorem secondRunStatus_FF (m1 m2 : String) :
    secondRunStatus ("FAILURE", m1) ("FAILURE", m2) :=
  ⟨fun h => absurd h (by decide : ¬("FAILURE" : String) = "SUCCESS"),
   fun h => absurd h (by decide : ¬("FAILURE" : String) = "SKIPPED_EXISTS"),
   fun _ => rfl⟩

theorem secondRunStatus_SK (m1 m2 : String) :
    secondRunStatus ("SUCCESS", m1) ("SKIPPED_EXISTS", m2) :=
  ⟨fun _ => rfl,
   fun h => absurd h (by decide : ¬("SUCCESS" : String) = "SKIPPED_EXISTS"),
   fun h => absurd h (by decide : ¬("SUCCESS" : String) = "FAILURE")⟩

theorem secondRunStatus_KK (m1 m2 : String) :
    secondRunStatus ("SKIPPED_EXISTS", m1) ("SKIPPED_EXISTS", m2) :=
  ⟨fun h => absurd h (by decide : ¬("SKIPPED_EXISTS" : String) = "SUCCESS"),
   fun _ => rfl,
   fun h => absurd h (by decide : ¬("SKIPPED_EXISTS" : String) = "FAILURE")⟩

/-- The lockstep analysis of the same all-skip batch run from a state
`A` (the first run) and from a state `B` that extends the first run's
final state (the second run): every first-run success or skip is a
second-run skip, every first-run failure fails again, and the second run
does not change the filesystem at all. -/
theorem skipLockstep (env : Env) :
    ∀ (ts : List Task) (A B : FS),
      (∀ t ∈ ts, t.conflictResolution = "skip") →
      (∀ t ∈ ts, fsExists A t.fullPath = true) →
      (∀ p, fsExists A p = true → lookupFS B p = lookupFS A p) →
      (∀ p, fsExists B p = true → fsExists A p = true ∨ env.writeFile p = Except.ok ()) →
      (∀ p, fsExists (runSingleProcess env A ts).2 p = true →
        lookupFS B p = lookupFS (runSingleProcess env A ts).2 p) →
      List.Forall₂ secondRunStatus (runSingleProcess env A ts).1
        (runSingleProcess env B ts).1 ∧
      (runSingleProcess env B ts).2 = B := by
  intro ts
  induction ts with
  | nil =>
    intro A B _ _ _ _ _
    exact ⟨List.Forall₂.nil, rfl⟩
  | cons t ts ih =>
    intro A B hpol hsrc hAB hBA hBfin
    have hpolt := hpol t (List.mem_cons_self t ts)
    have hpol' : ∀ u ∈ ts, u.conflictResolution = "skip" :=
      fun u hu => hpol u (List.mem_cons_of_mem _ hu)
    have hsrc' : ∀ u ∈ ts, fsExists A u.fullPath = true :=
      fun u hu => hsrc u (List.mem_cons_of_mem _ hu)
    have hsA := hsrc t (List.mem_cons_self t ts)
    obtain ⟨ob, hobA⟩ : ∃ b, lookupFS A t.fullPath = some b := by
      unfold fsExists at hsA
      exact Option.isSome_iff_exists.mp hsA
    have hobB : lookupFS B t.fullPath = some ob := by
      rw [hAB t.fullPath hsA]; exact hobA
    cases hco : computeOutput env ob (env.basename t.fullPath) with
    | error e =>
      have e1 := processSingleFile_body_err env A t ob e hobA hco
      have e2 := processSingleFile_body_err env B t ob e hobB hco
      simp only [runSingleProcess_cons, e1] at hBfin
      simp only [runSingleProcess_cons, e1, e2]
      obtain ⟨htail, hB2⟩ := ih A B hpol' hsrc' hAB hBA hBfin
      exact ⟨List.Forall₂.cons (secondRunStatus_FF _ _) htail, hB2⟩
    | ok v =>
      cases v with
      | inl m =>
        have e1 := processSingleFile_early_failure env A t ob m hobA hco
        have e2 := processSingleFile_early_failure env B t ob m hobB hco
        simp only [runSingleProcess_cons, e1] at hBfin
        simp only [runSingleProcess_cons, e1, e2]
        obtain ⟨htail, hB2⟩ := ih A B hpol' hsrc' hAB hBA hBfin
        exact ⟨List.Forall₂.cons (secondRunStatus_FF _ _) htail, hB2⟩
      | inr outB =>
        cases hmk : env.makedirs (outputFolderOf env t) with
        | error e =>
          have e1 := processSingleFile_mkdir_err env A t ob outB e hobA hco hmk
          have e2 := processSingleFile_mkdir_err env B t ob outB e hobB hco hmk
          simp only [runSingleProcess_cons, e1] at hBfin
          simp only [runSingleProcess_cons, e1, e2]
          obtain ⟨htail, hB2⟩ := ih A B hpol' hsrc' hAB hBA hBfin
          exact ⟨List.Forall₂.cons (secondRunStatus_FF _ _) htail, hB2⟩
        | ok u =>
          cases u
          cases hexA : fsExists A (outputPathOf env t) with
          | true =>
            have hexB : fsExists B (outputPathOf env t) = true := by
              unfold fsExists
              rw [hAB (outputPathOf env t) hexA]
              exact hexA
            have e1 := processSingleFile_skip env A t ob outB hobA hco hmk hpolt hexA
            have e2 := processSingleFile_skip env B t ob outB hobB hco hmk hpolt hexB
            simp only [runSingleProcess_cons, e1] at hBfin
            simp only [runSingleProcess_cons, e1, e2]
            obtain ⟨htail, hB2⟩ := ih A B hpol' hsrc' hAB hBA hBfin
            exact ⟨List.Forall₂.cons (secondRunStatus_KK _ _) htail, hB2⟩
          | false =>
            cases hexB : fsExists B (outputPathOf env t) with
            | true =>
              have hwr : env.writeFile (outputPathOf env t) = Except.ok () := by
                rcases hBA (outputPathOf env t) hexB with hA' | hw
                · rw [hexA] at hA'
                  exact Bool.noConfusion hA'
                · exact hw
              have e1 := processSingleFile_write_new env A t ob outB hobA hco hmk hexA hwr
              have e2 := processSingleFile_skip env B t ob outB hobB hco hmk hpolt hexB
              simp only [runSingleProcess_cons, e1] at hBfin
              simp only [runSingleProcess_cons, e1, e2]
              have hsrc2 : ∀ u ∈ ts,
                  fsExists (fsWrite A (outputPathOf env t) outB) u.fullPath = true :=
                fun u hu => fsExists_write_mono _ _ (hsrc' u hu)
              have hA'dest : lookupFS (fsWrite A (outputPathOf env t) outB)
                  (outputPathOf env t) = some outB :=
                lookupFS_write_self A _ outB
              have hfinal := runNoOverwrite env ts (fsWrite A (outputPathOf env t) outB)
                (fun u hu => Or.inl (hpol' u hu)) (outputPathOf env t)
                (fsExists_write_self A _ outB)
              have hexfinal : fsExists
                  (runSingleProcess env (fsWrite A (outputPathOf env t) outB) ts).2
                  (outputPathOf env t) = true := by
                unfold fsExists
                rw [hfinal, hA'dest]
                rfl
              have hBdest : lookupFS B (outputPathOf env t) = some outB := by
                rw [hBfin (outputPathOf env t) hexfinal, hfinal, hA'dest]
              have hAB2 : ∀ p, fsExists (fsWrite A (outputPathOf env t) outB) p = true →
                  lookupFS B p = lookupFS (fsWrite A (outputPathOf env t) outB) p := by
                intro p hp
                rcases fsExists_write_elim hp with rfl | hold
                · rw [hBdest, hA'dest]
                · have hpne : p ≠ outputPathOf env t := by
                    intro he
                    rw [he, hexA] at hold
                    exact Bool.noConfusion hold
                  rw [lookupFS_write_ne A _ outB hpne]
                  exact hAB p hold
              have hBA2 : ∀ p, fsExists B p = true →
                  fsExists (fsWrite A (outputPathOf env t) outB) p = true ∨
                  env.writeFile p = Except.ok () := by
                intro p hp
                rcases hBA p hp with hA' | hw
                · exact Or.inl (fsExists_write_mono _ _ hA')
                · exact Or.inr hw
              obtain ⟨htail, hB2⟩ :=
                ih (fsWrite A (outputPathOf env t) outB) B hpol' hsrc2 hAB2 hBA2 hBfin
              exact ⟨List.Forall₂.cons (secondRunStatus_SK _ _) htail, hB2⟩
            | false =>
              cases hwr : env.writeFile (outputPathOf env t) with
              | ok u2 =>
                cases u2
                exfalso
                have e1 := processSingleFile_write_new env A t ob outB hobA hco hmk hexA hwr
                simp only [runSingleProcess_cons, e1] at hBfin
                have hA'dest : lookupFS (fsWrite A (outputPathOf env t) outB)
                    (outputPathOf env t) = some outB :=
                  lookupFS_write_self A _ outB
                have hfinal := runNoOverwrite env ts (fsWrite A (outputPathOf env t) outB)
                  (fun u hu => Or.inl (hpol' u hu)) (outputPathOf env t)
                  (fsExists_write_self A _ outB)
                have hexfinal : fsExists
                    (runSingleProcess env (fsWrite A (outputPathOf env t) outB) ts).2
                    (outputPathOf env t) = true := by
                  unfold fsExists
                  rw [hfinal, hA'dest]
                  rfl
                have hBdest : lookupFS B (outputPathOf env t) = some outB := by
                  rw [hBfin (outputPathOf env t) hexfinal, hfinal, hA'dest]
                have hcontra : fsExists B (outputPathOf env t) = true :=
                  fsExists_of_lookup_some hBdest
                rw [hexB] at hcontra
                exact Bool.noConfusion hcontra
              | error e =>
                have e1 := processSingleFile_write_err env A t ob outB e hobA hco hmk hexA hwr
                have e2 := processSingleFile_write_err env B t ob outB e hobB hco hmk hexB hwr
                simp only [runSingleProcess_cons, e1] at hBfin
                simp only [runSingleProcess_cons, e1, e2]
                obtain ⟨htail, hB2⟩ := ih A B hpol' hsrc' hAB hBA hBfin
                exact ⟨List.Forall₂.cons (secondRunStatus_FF _ _) htail, hB2⟩

theorem secondRun_counts {rs1 rs2 : List Result}
    (hf : List.Forall₂ secondRunStatus rs1 rs2)
    (h1 : ∀ r ∈ rs1, r.1 = "SUCCESS" ∨ r.1 = "SKIPPED_EXISTS" ∨ r.1 = "FAILURE") :
    rs2.countP (fun r => decide (r.1 = "SUCCESS")) = 0 ∧
    rs2.countP (fun r => decide (r.1 = "SKIPPED_EXISTS")) =
      rs1.countP (fun r => decide (r.1 = "SUCCESS")) +
      rs1.countP (fun r => decide (r.1 = "SKIPPED_EXISTS")) ∧
    rs2.countP (fun r => decide (r.1 = "FAILURE")) =
      rs1.countP (fun r => decide (r.1 = "FAILURE")) := by
  induction hf with
  | nil => simp
  | cons hR htail ihtail =>
    rename_i r1 r2 l1 l2
    have hr1 := h1 r1 (List.mem_cons_self r1 l1)
    obtain ⟨ha2, hb2, hc2⟩ := ihtail (fun x hx => h1 x (List.mem_cons_of_mem _ hx))
    obtain ⟨hS, hK, hF⟩ := hR
    have d1 := statusStrings_distinct.1
    have d2 := statusStrings_distinct.2.1
    have d3 := statusStrings_distinct.2.2
    rcases hr1 with h | h | h
    · have h2 := hS h
      simp only [List.countP_cons, h, h2]
      simp [d1, d2, d3, Ne.symm d1, Ne.symm d2, Ne.symm d3, -List.countP_eq_zero]
      refine ⟨ha2, ?_, ?_⟩ <;> omega
    · have h2 := hK h
      simp only [List.countP_cons, h, h2]
      simp [d1, d2, d3, Ne.symm d1, Ne.symm d2, Ne.symm d3, -List.countP_eq_zero]
      refine ⟨ha2, ?_, ?_⟩ <;> omega
    · have h2 := hF h
      simp only [List.countP_cons, h, h2]
      simp [d1, d2, d3, Ne.symm d1, Ne.symm d2, Ne.symm d3, -List.countP_eq_zero]
      refine ⟨ha2, ?_, ?_⟩ <;> omega

/-- C8 (amended): with the skip policy an existing destination yields
`SKIPPED_EXISTS` with no write, and running the same batch twice never
overwrites any file; the second run's processed count is 0 and its
skipped-exists count equals the sum of the first run's processed and
skipped-exists counts (which is the first run's processed count whenever
the first run skipped nothing). -/
theorem C8_skip_idempotent (env : Env) (fs0 : FS) (tasks : List Task)
    (hpol : ∀ t ∈ tasks, t.conflictResolution = "skip")
    (hsrc : ∀ t ∈ tasks, fsExists fs0 t.fullPath = true) :
    (∀ (g : FS) (u : Task) (ob outB : Bytes),
      u.conflictResolution = "skip" →
      lookupFS g u.fullPath = some ob →
      computeOutput env ob (env.basename u.fullPath) = Except.ok (Sum.inr outB) →
      env.makedirs (outputFolderOf env u) = Except.ok () →
      fsExists g (outputPathOf env u) = true →
      processSingleFile env g u =
        (("SKIPPED_EXISTS", "已跳过 (文件已存在): " ++ newFilenameOf env u), g)) ∧
    (processResults (runSingleProcess env (runSingleProcess env fs0 tasks).2 tasks).1).1 = 0 ∧
    (processResults (runSingleProcess env (runSingleProcess env fs0 tasks).2 tasks).1).2.1 =
      (processResults (runSingleProcess env fs0 tasks).1).1 +
      (processResults (runSingleProcess env fs0 tasks).1).2.1 ∧
    (processResults (runSingleProcess env (runSingleProcess env fs0 tasks).2 tasks).1).2.2 =
      (processResults (runSingleProcess env fs0 tasks).1).2.2 ∧
    (∀ p, fsExists fs0 p = true →
      lookupFS (runSingleProcess env (runSingleProcess env fs0 tasks).2 tasks).2 p =
        lookupFS fs0 p) := by
  have hAB : ∀ p, fsExists fs0 p = true →
      lookupFS (runSingleProcess env fs0 tasks).2 p = lookupFS fs0 p :=
    fun p hp => runNoOverwrite env tasks fs0 (fun u hu => Or.inl (hpol u hu)) p hp
  have hBA : ∀ p, fsExists (runSingleProcess env fs0 tasks).2 p = true →
      fsExists fs0 p = true ∨ env.writeFile p = Except.ok () :=
    fun p hp => runWritten env tasks fs0 p hp
  obtain ⟨hforall, hB2⟩ := skipLockstep env tasks fs0 (runSingleProcess env fs0 tasks).2
    hpol hsrc hAB hBA (fun p _ => rfl)
  have hcounts := secondRun_counts hforall
    (fun r hr => runSingleProcess_statuses env tasks fs0 r hr)
  refine ⟨?_, ?_, ?_, ?_, ?_⟩
  · intro g u ob outB hp ho hc hm he
    exact processSingleFile_skip env g u ob outB ho hc hm hp he
  · rw [processResults_eq_countP]
    exact hcounts.1
  · rw [processResults_eq_countP, processResults_eq_countP]
    exact hcounts.2.1
  · rw [processResults_eq_countP, processResults_eq_countP]
    exact hcounts.2.2
  · intro p hp
    rw [hB2]
    exact hAB p hp

/-- Witness for C8 at a concrete clean batch of one skip task. -/
theorem C8_skip_idempotent_witness :
    (∀ (g : FS) (u : Task) (ob outB : Bytes),
      u.conflictResolution = "skip" →
      lookupFS g u.fullPath = some ob →
      computeOutput testEnv ob (testEnv.basename u.fullPath) = Except.ok (Sum.inr outB) →
      testEnv.makedirs (outputFolderOf testEnv u) = Except.ok () →
      fsExists g (outputPathOf testEnv u) = true →
      processSingleFile testEnv g u =
        (("SKIPPED_EXISTS", "已跳过 (文件已存在): " ++ newFilenameOf testEnv u), g)) ∧
    (processResults (runSingleProcess testEnv
      (runSingleProcess testEnv srcFS [skipTask]).2 [skipTask]).1).1 = 0 ∧
    (processResults (runSingleProcess testEnv
      (runSingleProcess testEnv srcFS [skipTask]).2 [skipTask]).1).2.1 =
      (processResults (runSingleProcess testEnv srcFS [skipTask]).1).1 +
      (processResults (runSingleProcess testEnv srcFS [skipTask]).1).2.1 ∧
    (processResults (runSingleProcess testEnv
      (runSingleProcess testEnv srcFS [skipTask]).2 [skipTask]).1).2.2 =
      (processResults (runSingleProcess testEnv srcFS [skipTask]).1).2.2 ∧
    (∀ p, fsExists srcFS p = true →
      lookupFS (runSingleProcess testEnv
        (runSingleProcess testEnv srcFS [skipTask]).2 [skipTask]).2 p =
        lookupFS srcFS p) :=
  C8_skip_idempotent testEnv srcFS [skipTask] (by decide) (by decide)

end JpgThumb
